import Mathlib

/-! The Duo challenge negotiation and the Touchstone hand-over of touchstone-client.

A shallow embedding of `duo/duo.go` and of `CompleteAuthWithDuo` from
`touchstone/touchstone.go`.

* Go strings are lists of characters (`Str`).
* The `*http.Client` is a `Transport`: a function from the requests issued so far and
  the current request to the reply of `PostForm`.  Every operation threads the log of
  the requests it issued, so that "issues no further request" is a statement on the log.
* Library code that is not part of the repository (`url.Parse`, `url.Values.Encode`,
  `http.NewRequest`, the `x/net/html` tokenizer, `html.UnescapeString`, the JSON
  decoders) is taken as a parameter, collected in `Lib`.
* The two regular expressions are run by a small backtracking matcher that tries the
  alternatives in the order of Go's leftmost-first semantics.
-/

namespace Touchstone

/-- A Go string. -/
abbrev Str := List Char

/-- String literals are read as Go strings. -/
instance : Coe String Str := ⟨String.toList⟩

/-! ## Errors and outcomes -/

/-- Go `error` values that the two packages can return.  `urlError` stands for the
`*url.Error` that `http.Client` and `url.Parse` return, `ioError` for what reading,
closing or JSON-decoding a body returns; the others are the package-level sentinels
of `duo/errors.go` and `touchstone/errors.go`. -/
inductive Error where
  | ErrMethodNotSupported
  | ErrDuoServer
  | ErrBadCreds
  | ErrBadParent
  | ErrServer
  | ErrUnknownResponse
  | urlError (msg : Str)
  | ioError (msg : Str)
  deriving DecidableEq, Repr

/-- The outcome of running a Go function: it returns, or it panics at run time. -/
inductive Outcome (α : Type) where
  | panicked (msg : Str)
  | returned (a : α)
  deriving DecidableEq, Repr

/-! ## `strings` -/

/-- Go `strings.Split(s, sep)` for a one-character separator: the pieces of `s`
between the occurrences of `sep`; always at least one piece. -/
def Split (sep : Char) : Str → List Str
  | [] => [[]]
  | c :: cs =>
    if c = sep then [] :: Split sep cs
    else
      match Split sep cs with
      | [] => [[c]]
      | p :: ps => (c :: p) :: ps

/-- Go `strings.HasPrefix(s, p)`. -/
def HasPrefix (s p : Str) : Bool := p.isPrefixOf s

/-! ## `url.Values` -/

/-- Go `url.Values`, a `map[string][]string`, as an association list with one entry
per key. -/
abbrev Values := List (Str × List Str)

/-- Go `url.Values{}`. -/
def Values.empty : Values := []

/-- Go `v.Get(key)`: the first value of `key`, or the empty string. -/
def Values.Get : Values → Str → Str
  | [], _ => []
  | (k, vs) :: rest, key => if k = key then vs.headD [] else Values.Get rest key

/-- Go `v.Add(key, value)`: appends `value` to the values of `key`. -/
def Values.Add : Values → Str → Str → Values
  | [], key, value => [(key, [value])]
  | (k, vs) :: rest, key, value =>
    if k = key then (k, vs ++ [value]) :: rest else (k, vs) :: Values.Add rest key value

/-! ## The transport -/

/-- A response body: the bytes it yields, the error reading it runs into (if any),
and the error `Close` returns (if any). -/
structure Body where
  data : Str
  readErr : Option Str
  closeErr : Option Str
  deriving DecidableEq, Repr

/-- The part of `*http.Response` the code looks at. -/
structure Response where
  StatusCode : Nat
  Body : Body
  deriving DecidableEq, Repr

/-- One `PostForm(url, form)` call. -/
structure Request where
  url : Str
  form : Values
  deriving DecidableEq, Repr

/-- The `*http.Client`: given the requests issued before and the current one, the
reply of `PostForm`, an error message (of a `*url.Error`) or a response. -/
abbrev Transport := List Request → Request → Except Str Response

/-- Go `c.PostForm(url, form)` on the log of requests: the reply and the new log. -/
def PostForm (t : Transport) (log : List Request) (url : Str) (form : Values) :
    Except Str Response × List Request :=
  (t log ⟨url, form⟩, log ++ [⟨url, form⟩])

/-- Go `ioutil.ReadAll(body)`. -/
def ReadAll (b : Body) : Except Str Str :=
  match b.readErr with
  | some e => .error e
  | none => .ok b.data

/-! ## Go maps -/

/-- Go `m[key] = v` on a map kept as an association list with one entry per key. -/
def MapSet {β : Type} : List (Str × β) → Str → β → List (Str × β)
  | [], key, v => [(key, v)]
  | (k, w) :: rest, key, v =>
    if k = key then (k, v) :: rest else (k, w) :: MapSet rest key v

/-- Go `m[key]`: the value stored under `key`, or the zero value `zero`. -/
def MapGet {β : Type} : List (Str × β) → Str → β → β
  | [], _, zero => zero
  | (k, w) :: rest, key, zero => if k = key then w else MapGet rest key zero

/-! ## The two regular expressions -/

/-- The pieces the two patterns are made of: a literal, a captured greedy star
`(c*)` and a captured lazy star `(c*?)` over a character class. -/
inductive RegexItem where
  | lit (s : Str)
  | capGreedy (cls : Char → Bool)
  | capLazy (cls : Char → Bool)

/-- A pattern: a sequence of items. -/
abbrev Regex := List RegexItem

/-- The class `.`: any character but a newline. -/
def dot (c : Char) : Bool := c != '\n'

/-- The class `[\w\W]`: any character. -/
def anyChar (_ : Char) : Bool := true

/-- Matches the literal `l` at the head of `s` and returns what follows it. -/
def dropLit : Str → Str → Option Str
  | [], s => some s
  | _ :: _, [] => none
  | a :: l, c :: s => if a = c then dropLit l s else none

/-- Greedy star followed by the continuation `k`: the longest run first, then
shorter ones.  Returns the run and what `k` returns. -/
def starGreedy {α : Type} (cls : Char → Bool) (k : Str → Option α) : Str → Option (Str × α)
  | [] => (k []).map fun r => ([], r)
  | c :: cs =>
    if cls c then
      match starGreedy cls k cs with
      | some (cap, r) => some (c :: cap, r)
      | none => (k (c :: cs)).map fun r => ([], r)
    else (k (c :: cs)).map fun r => ([], r)

/-- Lazy star followed by the continuation `k`: the shortest run first. -/
def starLazy {α : Type} (cls : Char → Bool) (k : Str → Option α) : Str → Option (Str × α)
  | [] => (k []).map fun r => ([], r)
  | c :: cs =>
    match k (c :: cs) with
    | some r => some ([], r)
    | none =>
      if cls c then
        match starLazy cls k cs with
        | some (cap, r) => some (c :: cap, r)
        | none => none
      else none

/-- The match of a pattern anchored at the head of `s`, alternatives tried in
leftmost-first order: the captured groups and the text after the match. -/
def matchHere : Regex → Str → Option (List Str × Str)
  | [], s => some ([], s)
  | .lit l :: re, s =>
    match dropLit l s with
    | some s1 => matchHere re s1
    | none => none
  | .capGreedy cls :: re, s =>
    (starGreedy cls (matchHere re) s).map fun r => (r.1 :: r.2.1, r.2.2)
  | .capLazy cls :: re, s =>
    (starLazy cls (matchHere re) s).map fun r => (r.1 :: r.2.1, r.2.2)

/-- Scans `s` from left to right; `skip` characters are still inside the previous
match.  Each match is the list of the whole match followed by its groups. -/
def findAllAux (re : Regex) : Str → Nat → List (List Str)
  | [], _ => []
  | _ :: cs, skip + 1 => findAllAux re cs skip
  | c :: cs, 0 =>
    match matchHere re (c :: cs) with
    | some (caps, rest) =>
      let n := (c :: cs).length - rest.length
      ((c :: cs).take n :: caps) :: findAllAux re cs (n - 1)
    | none => findAllAux re cs 0

/-- Go `re.FindAllStringSubmatch(s, -1)`: the successive non-overlapping matches. -/
def FindAllStringSubmatch (re : Regex) (s : Str) : List (List Str) :=
  findAllAux re s 0

/-- The pattern
`<fieldset data-device-index="(.*)" class="hidden">([\w\W]*?)<\/fieldset>`. -/
def fieldsetRegex : Regex :=
  [.lit "<fieldset data-device-index=\"".toList, .capGreedy dot,
   .lit "\" class=\"hidden\">".toList, .capLazy anyChar, .lit "</fieldset>".toList]

/-- The pattern `<input type="hidden" name="(.*)" value="(.*)">`. -/
def inputRegex : Regex :=
  [.lit "<input type=\"hidden\" name=\"".toList, .capGreedy dot,
   .lit "\" value=\"".toList, .capGreedy dot, .lit "\">".toList]

/-! ## The `x/net/html` token stream -/

/-- Go `html.TokenType`. -/
inductive TokenType where
  | ErrorToken
  | TextToken
  | StartTagToken
  | EndTagToken
  | SelfClosingTagToken
  | CommentToken
  | DoctypeToken
  deriving DecidableEq, Repr

/-- What the tokenizer holds after `z.Next()`: the token type, the tag name
(`z.TagName()`), the attributes in order (`z.TagAttr()`) and the text (`z.Text()`). -/
structure Token where
  tt : TokenType
  tagName : Str
  attrs : List (Str × Str)
  text : Str
  deriving DecidableEq, Repr

/-- The source's `parseAttrs`: reads the attributes into a map.  The loop body runs
before the test, so a tag without attributes yields the map with the empty key. -/
def parseAttrs : List (Str × Str) → List (Str × Str)
  | [] => MapSet [] [] []
  | a :: rest => (a :: rest).foldl (fun m kv => MapSet m kv.1 kv.2) []

/-! ## The data model of `duo/duo.go` -/

/-- A Device is a device that can be used with a Method. -/
structure Device where
  Index : Str
  FriendlyName : Str
  deriving DecidableEq, Repr

/-- A Method is a method that can be used to complete a Challenge. -/
structure Method where
  FriendlyName : Str
  DeviceName : Str
  DeviceIndex : Str
  deriving DecidableEq, Repr

/-- A Challenge is a 2FA request from Duo.  The `*http.Client` field is the
transport, passed to the operations separately. -/
structure Challenge where
  Devices : List Device
  Methods : List Method
  hiddenInputs : Values
  host : Str
  txid : Str
  deriving DecidableEq, Repr

/-- A ChallengeResponse is returned after a Method of a Challenge is completed. -/
structure ChallengeResponse where
  StatusCode : Str
  Result : Str
  ResultURL : Str
  Parent : Str
  Reason : Str
  Status : Str
  deriving DecidableEq, Repr

/-- The envelope of a ChallengeResponse. -/
structure challengeResponseWrapper where
  Response : ChallengeResponse
  Stat : Str
  deriving DecidableEq, Repr

/-- A StatusResponse is returned after a Method of a Challenge is started. -/
structure StatusResponse where
  StatusCode : Str
  Status : Str
  deriving DecidableEq, Repr

/-- The envelope of a StatusResponse. -/
structure statusResponseWrapper where
  Response : StatusResponse
  Stat : Str
  deriving DecidableEq, Repr

/-- A FinalResponse is returned after a Challenge is completed. -/
structure FinalResponse where
  Parent : Str
  Cookie : Str
  deriving DecidableEq, Repr

/-- The envelope of a FinalResponse. -/
structure finalResponseWrapper where
  Response : FinalResponse
  Stat : Str
  deriving DecidableEq, Repr

/-- The payload of the reply to the prompt request. -/
structure promptResponse where
  TxID : Str
  deriving DecidableEq, Repr

/-- The envelope of a promptResponse. -/
structure promptResponseWrapper where
  Response : promptResponse
  Stat : Str
  deriving DecidableEq, Repr

/-! ## Library code taken as a parameter -/

/-- The library functions the code calls and that are not part of the repository. -/
structure Lib where
  /-- Go `url.Parse`: the scheme and the host of the URL, or an error. -/
  urlParse : Str → Except Str (Str × Str)
  /-- Go `url.Values.Encode`. -/
  Encode : Values → Str
  /-- The error of `http.NewRequest("POST", url, body)`, if any. -/
  newRequestErr : Str → Option Str
  /-- The tokens `html.NewTokenizer` delivers for a page, up to the first error. -/
  tokenize : Str → List Token
  /-- Go `html.UnescapeString`. -/
  UnescapeString : Str → Str
  /-- Decoding a body with `json.NewDecoder(body).Decode` into each envelope. -/
  decodePrompt : Body → Except Str promptResponseWrapper
  decodeStatus : Body → Except Str statusResponseWrapper
  decodeChallenge : Body → Except Str challengeResponseWrapper
  decodeFinal : Body → Except Str finalResponseWrapper

/-! ## `BeginChallenge` -/

/-- The inner loop of lines 171-175: appends the unescaped value of every input
named `factor` to the entry of `deviceIndex`. -/
def factorLoop (lib : Lib) (deviceIndex : Str) :
    List (List Str) → List (Str × List Str) → List (Str × List Str)
  | [], m => m
  | inputGroups :: rest, m =>
    if inputGroups.getD 1 [] = ("factor" : Str) then
      factorLoop lib deviceIndex rest
        (MapSet m deviceIndex (MapGet m deviceIndex [] ++ [lib.UnescapeString (inputGroups.getD 2 [])]))
    else factorLoop lib deviceIndex rest m

/-- The loop of lines 162-176 over the fieldset matches, building
`methodStringsForDevice`. -/
def fieldsetLoop (lib : Lib) :
    List (List Str) → List (Str × List Str) → List (Str × List Str)
  | [], m => m
  | fieldsetGroups :: rest, m =>
    let deviceIndex := fieldsetGroups.getD 1 []
    let contents := fieldsetGroups.getD 2 []
    let inputs := FindAllStringSubmatch inputRegex contents
    fieldsetLoop lib rest (factorLoop lib deviceIndex inputs (MapSet m deviceIndex []))

/-- The loop of lines 180-184: every input not named `factor` is added to the hidden
inputs. -/
def hiddenLoop (lib : Lib) : List (List Str) → Values → Values
  | [], hiddenInputs => hiddenInputs
  | inputGroups :: rest, hiddenInputs =>
    if inputGroups.getD 1 [] ≠ ("factor" : Str) then
      hiddenLoop lib rest
        (hiddenInputs.Add (inputGroups.getD 1 []) (lib.UnescapeString (inputGroups.getD 2 [])))
    else hiddenLoop lib rest hiddenInputs

/-- The token loop of lines 191-230, on the tokens still to come and the loop
variables `foundSelect`, `deviceIndex` and `devices`.  The end of the token list is
the tokenizer's `ErrorToken`. -/
def deviceLoop : List Token → Bool → Str → List Device → List Device
  | [], _, _, devices => devices
  | z :: rest, foundSelect, deviceIndex, devices =>
    match z.tt with
    | .ErrorToken => devices
    | .StartTagToken =>
      if z.tagName = ("select" : Str) ∧ MapGet (parseAttrs z.attrs) "name" [] = ("device" : Str) then
        deviceLoop rest true deviceIndex devices
      else if foundSelect ∧ z.tagName = ("option" : Str) then
        deviceLoop rest foundSelect (MapGet (parseAttrs z.attrs) "value" []) devices
      else deviceLoop rest foundSelect deviceIndex devices
    | .EndTagToken =>
      if foundSelect ∧ z.tagName = ("select" : Str) then devices
      else deviceLoop rest foundSelect deviceIndex devices
    | .TextToken =>
      if deviceIndex ≠ [] then
        deviceLoop rest foundSelect [] (devices ++ [⟨deviceIndex, z.text⟩])
      else deviceLoop rest foundSelect deviceIndex devices
    | _ => deviceLoop rest foundSelect deviceIndex devices

/-- The inner loop of lines 235-241 over the method strings of one device. -/
def methodLoop (device : Device) : List Str → List Method → List Method
  | [], methods => methods
  | method :: rest, methods =>
    methodLoop device rest (methods ++ [⟨method, device.FriendlyName, device.Index⟩])

/-- The loop of lines 234-242 over the devices. -/
def methodsLoop (methodStringsForDevice : List (Str × List Str)) :
    List Device → List Method → List Method
  | [], methods => methods
  | device :: rest, methods =>
    methodsLoop methodStringsForDevice rest
      (methodLoop device (MapGet methodStringsForDevice device.Index []) methods)

/-- Lines 158-252 of `BeginChallenge`: the Challenge built from the page body. -/
def parseChallenge (lib : Lib) (host duoPromptBody : Str) : Challenge :=
  let fieldsets := FindAllStringSubmatch fieldsetRegex duoPromptBody
  let methodStringsForDevice := fieldsetLoop lib fieldsets []
  let inputs := FindAllStringSubmatch inputRegex duoPromptBody
  let hiddenInputs := hiddenLoop lib inputs Values.empty
  let devices := deviceLoop (lib.tokenize duoPromptBody) false [] []
  let methods :=
    if devices.length > 0 then methodsLoop methodStringsForDevice devices [] else []
  { Devices := devices, Methods := methods, hiddenInputs := hiddenInputs,
    host := host, txid := [] }

/-- BeginChallenge starts handling a Duo authentication request.  Returns the
outcome (a Challenge or an error, or a panic) and the log of requests. -/
def BeginChallenge (lib : Lib) (c : Transport) (log : List Request)
    (parent host sigRequest _postAction : Str) :
    Outcome (Option Challenge × Option Error) × List Request :=
  let v : Str := "2.6"
  let sigs := Split ':' sigRequest
  match sigs[0]? with
  | none => (.panicked "index out of range", log)
  | some txSig =>
  match lib.urlParse parent with
  | .error e => (.returned (none, some (.urlError e)), log)
  | .ok parentURL =>
  let referer : Str := parentURL.1 ++ "://" ++ parentURL.2 ++ "/"
  let duoAuthRequestURL : Str := "https://" ++ host ++ "/frame/web/v1/auth" ++ "?" ++
    lib.Encode [("tx", [txSig]), ("parent", [parent]), ("v", [v])]
  let duoAuthRequestData : Values :=
    Values.empty
      |>.Add "tx" txSig
      |>.Add "parent" parent
      |>.Add "referer" referer
      |>.Add "java_version" ""
      |>.Add "flash_version" ""
      |>.Add "screen_resolution_width" "1920"
      |>.Add "screen_resolution_height" "1080"
      |>.Add "color_depth" "24"
      |>.Add "is_cef_browser" "false"
      |>.Add "is_ipad_os" "false"
  match lib.newRequestErr duoAuthRequestURL with
  | some e => (.returned (none, some (.urlError e)), log)
  | none =>
  match PostForm c log duoAuthRequestURL duoAuthRequestData with
  | (.error e, log1) => (.returned (none, some (.urlError e)), log1)
  | (.ok duoPromptResp, log1) =>
  match ReadAll duoPromptResp.Body with
  | .error e => (.returned (none, some (.ioError e)), log1)
  | .ok duoPromptBody =>
  match duoPromptResp.Body.closeErr with
  | some e => (.returned (none, some (.ioError e)), log1)
  | none => (.returned (some (parseChallenge lib host duoPromptBody), none), log1)

/-! ## `StartMethod` and `WaitForCompletion` -/

/-- StartMethod starts the authentication process with the given Method.  Returns the
pair the Go function returns, the Challenge after the call and the log of requests. -/
def StartMethod (lib : Lib) (t : Transport) (log : List Request) (c : Challenge)
    (method : Method) :
    (Option StatusResponse × Option Error) × Challenge × List Request :=
  let sid := c.hiddenInputs.Get "sid"
  let promptURL : Str := "https://" ++ c.host ++ "/frame/prompt"
  match PostForm t log promptURL
      [("sid", [sid]), ("device", [method.DeviceIndex]), ("factor", [method.FriendlyName]),
       ("out_of_date", [""]), ("days_out_of_date", [""]), ("days_to_block", [""])] with
  | (.error e, log1) => ((none, some (.urlError e)), c, log1)
  | (.ok promptResp, log1) =>
  match lib.decodePrompt promptResp.Body with
  | .error e => ((none, some (.ioError e)), c, log1)
  | .ok promptRespData =>
  match promptResp.Body.closeErr with
  | some e => ((none, some (.ioError e)), c, log1)
  | none =>
  if promptRespData.Stat ≠ ("OK" : Str) then ((none, some .ErrDuoServer), c, log1)
  else
  let statusURL : Str := "https://" ++ c.host ++ "/frame/status"
  match PostForm t log1 statusURL
      [("sid", [sid]), ("txid", [promptRespData.Response.TxID])] with
  | (.error e, log2) => ((none, some (.urlError e)), c, log2)
  | (.ok statusResp, log2) =>
  let c1 : Challenge := { c with txid := promptRespData.Response.TxID }
  match lib.decodeStatus statusResp.Body with
  | .error e => ((none, some (.ioError e)), c1, log2)
  | .ok statusRespData =>
  match statusResp.Body.closeErr with
  | some e => ((none, some (.ioError e)), c1, log2)
  | none => ((some statusRespData.Response, none), c1, log2)

/-- WaitForCompletion waits for the authentication process of the Challenge to
complete.  Returns the triple the Go function returns, the Challenge after the call
and the log of requests. -/
def WaitForCompletion (lib : Lib) (t : Transport) (log : List Request) (c : Challenge) :
    (Option FinalResponse × Option ChallengeResponse × Option Error) × Challenge ×
      List Request :=
  let statusURL : Str := "https://" ++ c.host ++ "/frame/status"
  match PostForm t log statusURL
      [("sid", [c.hiddenInputs.Get "sid"]), ("txid", [c.txid])] with
  | (.error e, log1) => ((none, none, some (.urlError e)), c, log1)
  | (.ok completionResp, log1) =>
  match lib.decodeChallenge completionResp.Body with
  | .error e => ((none, none, some (.ioError e)), c, log1)
  | .ok completionRespData =>
  match completionResp.Body.closeErr with
  | some e => ((none, none, some (.ioError e)), c, log1)
  | none =>
  if completionRespData.Response.Result = ("SUCCESS" : Str) then
    match PostForm t log1 ("https://" ++ c.host ++ completionRespData.Response.ResultURL)
        [("sid", [c.hiddenInputs.Get "sid"])] with
    | (.error e, log2) => ((none, none, some (.urlError e)), c, log2)
    | (.ok finalResp, log2) =>
    match lib.decodeFinal finalResp.Body with
    | .error e => ((none, none, some (.ioError e)), c, log2)
    | .ok finalRespData =>
    match finalResp.Body.closeErr with
    | some e => ((none, none, some (.ioError e)), c, log2)
    | none => ((some finalRespData.Response, some completionRespData.Response, none), c, log2)
  else ((none, some completionRespData.Response, none), c, log1)

/-! ## `touchstone.Client` -/

/-- The base touchstone url. -/
def baseURLString : Str := "https://idp.mit.edu/"

/-- A Client handles authentication to Touchstone.  The `HTTPClient` field is the
transport, passed to the operations separately. -/
structure Client where
  sigRequest : Str
  conversation : Str
  deriving DecidableEq, Repr

/-- CompleteAuthWithDuo uses the given FinalResponse to finish the Touchstone
authentication process.  Returns the error the Go function returns (or a panic) and
the log of requests. -/
def CompleteAuthWithDuo (t : Transport) (log : List Request) (c : Client)
    (final : FinalResponse) : Outcome (Option Error) × List Request :=
  if !HasPrefix final.Parent baseURLString then (.returned (some .ErrBadParent), log)
  else
  let sigs := Split ':' c.sigRequest
  match sigs[1]? with
  | none => (.panicked "index out of range", log)
  | some appSig =>
  match PostForm t log final.Parent
      [("conversation", [c.conversation]), ("sig_response", [final.Cookie ++ ":" ++ appSig])] with
  | (.error e, log1) => (.returned (some (.urlError e)), log1)
  | (.ok redirectResp, log1) =>
  if redirectResp.StatusCode ≠ 200 then (.returned (some .ErrServer), log1)
  else (.returned none, log1)

/-! ## Definitions used in the statements -/

/-- The value of the first hidden input named `name` that the input pattern finds on
the page, unescaped; the empty string when there is none. -/
def firstHiddenInput (lib : Lib) (name body : Str) : Str :=
  match (FindAllStringSubmatch inputRegex body).find? (fun g => g.getD 1 [] = name) with
  | some g => lib.UnescapeString (g.getD 2 [])
  | none => []

/-- The first value stored under `key`, if there is one: `Get` without its default. -/
def Values.first? : Values → Str → Option Str
  | [], _ => none
  | (k, vs) :: rest, key => if k = key then vs.head? else Values.first? rest key

/-- The prompt POST of `StartMethod` for a host, a `sid` and a Method. -/
def promptRequest (host sid : Str) (method : Method) : Request :=
  ⟨"https://" ++ host ++ "/frame/prompt",
    [("sid", [sid]), ("device", [method.DeviceIndex]), ("factor", [method.FriendlyName]),
     ("out_of_date", [""]), ("days_out_of_date", [""]), ("days_to_block", [""])]⟩

/-- The status POST of `StartMethod` and `WaitForCompletion`. -/
def statusRequest (host sid txid : Str) : Request :=
  ⟨"https://" ++ host ++ "/frame/status", [("sid", [sid]), ("txid", [txid])]⟩

/-- The final POST of `WaitForCompletion`, to the result URL on the host. -/
def finalRequest (host sid resultURL : Str) : Request :=
  ⟨"https://" ++ host ++ resultURL, [("sid", [sid])]⟩

/-- The status POST of `StartMethod` was answered by the transport: the prompt reply
was delivered, decoded, had the envelope `OK` and carried `txid`, and the transport
returned a response to the status POST that followed. -/
def StatusPostAnswered (lib : Lib) (t : Transport) (log : List Request) (c : Challenge)
    (method : Method) (txid : Str) : Prop :=
  ∃ promptResp w statusResp,
    t log (promptRequest c.host (c.hiddenInputs.Get "sid") method) = .ok promptResp ∧
    lib.decodePrompt promptResp.Body = .ok w ∧
    promptResp.Body.closeErr = none ∧
    w.Stat = ("OK" : Str) ∧
    w.Response.TxID = txid ∧
    t (log ++ [promptRequest c.host (c.hiddenInputs.Get "sid") method])
      (statusRequest c.host (c.hiddenInputs.Get "sid") txid) = .ok statusResp

/-- Every reply that `WaitForCompletion` reads is delivered and decodes: the reply to
the status POST and, when it reports `SUCCESS`, the reply to the final POST. -/
def RepliesDelivered (lib : Lib) (t : Transport) (log : List Request) (c : Challenge) :
    Prop :=
  ∃ completionResp w,
    t log (statusRequest c.host (c.hiddenInputs.Get "sid") c.txid) = .ok completionResp ∧
    lib.decodeChallenge completionResp.Body = .ok w ∧
    completionResp.Body.closeErr = none ∧
    (w.Response.Result ≠ ("SUCCESS" : Str) ∨
      ∃ finalResp w2,
        t (log ++ [statusRequest c.host (c.hiddenInputs.Get "sid") c.txid])
          (finalRequest c.host (c.hiddenInputs.Get "sid") w.Response.ResultURL) =
            .ok finalResp ∧
        lib.decodeFinal finalResp.Body = .ok w2 ∧
        finalResp.Body.closeErr = none)

/-- What the inner loop of lines 167-175 collects from the text of one fieldset: the
unescaped second groups of the matches of the input pattern whose first group is
`factor`, in order. -/
def factorsOf (lib : Lib) (contents : Str) : List Str :=
  ((FindAllStringSubmatch inputRegex contents).filter
    (fun i => i.getD 1 [] = ("factor" : Str))).map fun i => lib.UnescapeString (i.getD 2 [])

/-- The factor list of a device index as the two patterns of the code find it: what
`factorsOf` collects from the second group of the last match of the fieldset pattern
whose first group is the index, the empty list when there is no such match.  This
follows the matches of the patterns, not the markup: several inputs on one line are
one match of the greedy input pattern. -/
def patternFactors (lib : Lib) (body index : Str) : List Str :=
  match ((FindAllStringSubmatch fieldsetRegex body).filter
      (fun g => g.getD 1 [] = index)).getLast? with
  | none => []
  | some g => factorsOf lib (g.getD 2 [])

/-- The Method list built from the pattern matches: for each device in order, one
Method per entry of `patternFactors` for the index of the device, in order. -/
def patternMethods (lib : Lib) (body : Str) (devices : List Device) : List Method :=
  devices.flatMap fun d =>
    (patternFactors lib body d.Index).map fun m => ⟨m, d.FriendlyName, d.Index⟩

/-- The tokens of `<option ATTRS>LABEL</option>`. -/
def optionTokens (attrs : List (Str × Str)) (label : Str) : List Token :=
  [⟨.StartTagToken, "option", attrs, []⟩, ⟨.TextToken, [], [], label⟩,
   ⟨.EndTagToken, "option", [], []⟩]

/-- A token between two options: text (white space) or a comment. -/
def Token.isGap (z : Token) : Bool :=
  z.tt = .TextToken || z.tt = .CommentToken

/-- One `<option>` of the device select: its attributes, its label and the tokens
between it and the next tag. -/
structure OptionEntry where
  attrs : List (Str × Str)
  label : Str
  gap : List Token

/-- The tokens of `<select ATTRS> ... </select>` with the given options. -/
def selectTokens (attrs : List (Str × Str)) (lead : List Token) (opts : List OptionEntry) :
    List Token :=
  ⟨.StartTagToken, "select", attrs, []⟩ ::
    (lead ++ opts.flatMap (fun o => optionTokens o.attrs o.label ++ o.gap) ++
      [⟨.EndTagToken, "select", [], []⟩])

/-- A token that the device loop passes over before it has found the select: not the
end of the stream and not the start tag of `<select name="device">`. -/
def Token.beforeSelect (z : Token) : Bool :=
  z.tt != .ErrorToken &&
    !(z.tt = .StartTagToken && z.tagName = ("select" : Str) &&
      MapGet (parseAttrs z.attrs) "name" [] = ("device" : Str))

/-! ## The markup of a challenge page, for the statements on the two patterns -/

/-- A hidden input of the page. -/
structure HiddenInput where
  name : Str
  value : Str
  deriving DecidableEq, Repr

/-- A fieldset of the page: its `data-device-index` and its hidden inputs. -/
structure FieldsetBlock where
  index : Str
  inputs : List HiddenInput
  deriving DecidableEq, Repr

/-- The markup `<input type="hidden" name="NAME" value="VALUE">`. -/
def renderInput (i : HiddenInput) : Str :=
  "<input type=\"hidden\" name=\"" ++ i.name ++ "\" value=\"" ++ i.value ++ "\">"

/-- The inputs of a fieldset, one per line. -/
def renderInputs (inputs : List HiddenInput) : Str :=
  inputs.flatMap fun i => renderInput i ++ "\n"

/-- The markup of a fieldset: the opening tag, the inputs on the following lines, the
closing tag. -/
def renderFieldset (f : FieldsetBlock) : Str :=
  "<fieldset data-device-index=\"" ++ f.index ++ "\" class=\"hidden\">" ++ "\n" ++
    renderInputs f.inputs ++ "</fieldset>"

/-- The fieldsets of a page, one after the other. -/
def renderFieldsets (fieldsets : List FieldsetBlock) : Str :=
  fieldsets.flatMap fun f => renderFieldset f ++ "\n"

/-- A character of an attribute value that needs no escaping and does not end the
line: not a double quote, not `<`, not a newline. -/
def plainChar (c : Char) : Bool :=
  c != '"' && c != '<' && c != '\n'

/-- The number of double quotes on the first line of a text. -/
def lineQuotes : Str → Nat
  | [] => 0
  | c :: cs => if c = '\n' then 0 else (if c = '"' then 1 else 0) + lineQuotes cs

/-- Every `<` of the text is followed by an `i`: the text opens inputs and nothing
else. -/
def ltOk : Str → Bool
  | [] => true
  | c :: cs => (c != '<' || cs.head? == some 'i') && ltOk cs

/-- The literal `l` occurs somewhere in `s`. -/
def occursIn (l s : Str) : Bool :=
  s.tails.any fun q => l.isPrefixOf q

/-- The factors of a fieldset as the specification words them: the values,
HTML-unescaped and in source order, of its hidden inputs named `factor`. -/
def FieldsetBlock.factors (lib : Lib) (f : FieldsetBlock) : List Str :=
  (f.inputs.filter fun i => i.name = ("factor" : Str)).map fun i =>
    lib.UnescapeString i.value

/-- The factor list of a device index on a page with the fieldsets `fs`, as the
specification words it: the factors of the fieldset whose `data-device-index` is the
index (the last one, should the index repeat), the empty list when there is none. -/
def markupFactors (lib : Lib) (fs : List FieldsetBlock) (index : Str) : List Str :=
  match (fs.filter fun f => f.index = index).getLast? with
  | none => []
  | some f => f.factors lib

/-- The markup of a fieldset written on one line, the inputs one after the other. -/
def renderFieldsetInline (f : FieldsetBlock) : Str :=
  "<fieldset data-device-index=\"" ++ f.index ++ "\" class=\"hidden\">" ++
    f.inputs.flatMap renderInput ++ "</fieldset>"

/-! ## Concrete instances for the examples -/

/-- A transport that answers the n-th request with the n-th reply of a script. -/
def scripted (replies : List (Except Str Response)) : Transport :=
  fun log _ => replies.getD log.length (.error "no reply")

/-- A response with status 200 whose body reads and closes without error. -/
def okResponse (data : Str) : Response :=
  { StatusCode := 200, Body := { data := data, readErr := none, closeErr := none } }

/-- The page of the specification's example: the fieldset followed by the select. -/
def examplePage : Str :=
  "<fieldset data-device-index=\"0\" class=\"hidden\"><input type=\"hidden\" name=\"factor\" value=\"Duo Push\"></fieldset><select name=\"device\"><option value=\"0\">iPhone</option></select>"

/-- The tokens of `examplePage`. -/
def exampleTokens : List Token :=
  [ ⟨.StartTagToken, "fieldset", [("data-device-index", "0"), ("class", "hidden")], []⟩,
    ⟨.StartTagToken, "input", [("type", "hidden"), ("name", "factor"), ("value", "Duo Push")], []⟩,
    ⟨.EndTagToken, "fieldset", [], []⟩,
    ⟨.StartTagToken, "select", [("name", "device")], []⟩,
    ⟨.StartTagToken, "option", [("value", "0")], []⟩,
    ⟨.TextToken, [], [], "iPhone"⟩,
    ⟨.EndTagToken, "option", [], []⟩,
    ⟨.EndTagToken, "select", [], []⟩ ]

/-- The fieldsets of the second example page: a phone with three factors and a
landline with one. -/
def exampleFieldsets : List FieldsetBlock :=
  [ ⟨"phone1", [⟨"factor", "Duo Push"⟩, ⟨"factor", "Phone Call"⟩, ⟨"factor", "Passcode"⟩]⟩,
    ⟨"phone2", [⟨"factor", "Phone Call"⟩]⟩ ]

/-- The text of the second example page before its fieldsets: a `sid` input and the
device select with three options, the third without a fieldset. -/
def examplePage2Head : Str :=
  "<form>\n<input type=\"hidden\" name=\"sid\" value=\"SID1\">\n<select name=\"device\">\n<option value=\"phone1\">iPhone</option>\n<option value=\"phone2\">Landline</option>\n<option value=\"token1\">Token</option>\n</select>\n"

/-- The second example page, on several lines. -/
def examplePage2 : Str :=
  examplePage2Head ++ renderFieldsets exampleFieldsets ++ "</form>\n"

/-- The tokens of `examplePage2` up to the end of the select, where the device loop
stops. -/
def exampleTokens2 : List Token :=
  [ ⟨.StartTagToken, "form", [], []⟩,
    ⟨.TextToken, [], [], "\n"⟩,
    ⟨.StartTagToken, "input", [("type", "hidden"), ("name", "sid"), ("value", "SID1")], []⟩,
    ⟨.TextToken, [], [], "\n"⟩ ] ++
  selectTokens [("name", "device")] [⟨.TextToken, [], [], "\n"⟩]
    [ ⟨[("value", "phone1")], "iPhone", [⟨.TextToken, [], [], "\n"⟩]⟩,
      ⟨[("value", "phone2")], "Landline", [⟨.TextToken, [], [], "\n"⟩]⟩,
      ⟨[("value", "token1")], "Token", [⟨.TextToken, [], [], "\n"⟩]⟩ ]

/-- A Challenge as negotiation leaves it: the example devices, a `sid`, no `txid`. -/
def exampleChallenge : Challenge :=
  { Devices := [⟨"0", "iPhone"⟩], Methods := [⟨"Duo Push", "iPhone", "0"⟩],
    hiddenInputs := [("sid", ["SID1"])], host := "api.duosecurity.com", txid := [] }

/-- The fieldset of the third example page: one device with two factors. -/
def exampleFieldset3 : FieldsetBlock :=
  ⟨"0", [⟨"factor", "Duo Push"⟩, ⟨"factor", "Phone Call"⟩]⟩

/-- The third example page: the page of the specification's example with a second
factor input, all on one line. -/
def examplePage3 : Str :=
  "<fieldset data-device-index=\"0\" class=\"hidden\"><input type=\"hidden\" name=\"factor\" value=\"Duo Push\"><input type=\"hidden\" name=\"factor\" value=\"Phone Call\"></fieldset><select name=\"device\"><option value=\"0\">iPhone</option></select>"

/-- The tokens of `examplePage3`. -/
def exampleTokens3 : List Token :=
  [ ⟨.StartTagToken, "fieldset", [("data-device-index", "0"), ("class", "hidden")], []⟩,
    ⟨.StartTagToken, "input", [("type", "hidden"), ("name", "factor"), ("value", "Duo Push")], []⟩,
    ⟨.StartTagToken, "input", [("type", "hidden"), ("name", "factor"), ("value", "Phone Call")], []⟩,
    ⟨.EndTagToken, "fieldset", [], []⟩,
    ⟨.StartTagToken, "select", [("name", "device")], []⟩,
    ⟨.StartTagToken, "option", [("value", "0")], []⟩,
    ⟨.TextToken, [], [], "iPhone"⟩,
    ⟨.EndTagToken, "option", [], []⟩,
    ⟨.EndTagToken, "select", [], []⟩ ]

/-- A toy codec for the examples: a body `stat|x|y` decodes to the envelope with that
`stat` and the payload fields `x`, `y`; a body with fewer parts does not decode. -/
def demoFields (b : Body) : Except Str (Str × Str × Str) :=
  match Split '|' b.data with
  | stat :: x :: y :: _ => .ok (stat, x, y)
  | _ => .error "unexpected end of JSON input"

/-- A library instance for the examples: every URL parses to the Touchstone host,
values are encoded as `key=value&`, strings have no entities, the tokenizer knows the
three example pages, and the bodies use the toy codec. -/
def demoLib : Lib where
  urlParse := fun _ => .ok ("https", "idp.mit.edu")
  Encode := fun v => v.foldr (fun kv acc => kv.1 ++ "=" ++ kv.2.headD [] ++ "&" ++ acc) []
  newRequestErr := fun _ => none
  tokenize := fun body =>
    if body = examplePage then exampleTokens
    else if body = examplePage2 then exampleTokens2
    else if body = examplePage3 then exampleTokens3 else []
  UnescapeString := fun s => s
  decodePrompt := fun b => (demoFields b).map fun r => ⟨⟨r.2.1⟩, r.1⟩
  decodeStatus := fun b => (demoFields b).map fun r => ⟨⟨r.2.1, r.2.2⟩, r.1⟩
  decodeChallenge := fun b => (demoFields b).map fun r => ⟨⟨[], r.2.1, r.2.2, [], [], []⟩, r.1⟩
  decodeFinal := fun b => (demoFields b).map fun r => ⟨⟨r.2.1, r.2.2⟩, r.1⟩

/-! # Theorems -/

set_option maxRecDepth 1000000

/-! ## Lemmas on `Split` -/

theorem Split_ne_nil (sep : Char) (s : Str) : Split sep s ≠ [] := by
  induction s with
  | nil => simp [Split]
  | cons c cs ih =>
    unfold Split
    split
    · simp
    · split <;> simp

theorem Split_of_not_mem (sep : Char) (s : Str) (h : sep ∉ s) : Split sep s = [s] := by
  induction s with
  | nil => rfl
  | cons c cs ih =>
    have hc : c ≠ sep := fun e => h (by simp [e])
    have hcs : sep ∉ cs := fun e => h (by simp [e])
    simp [Split, hc, ih hcs]

theorem Split_append_sep (sep : Char) (a b : Str) (h : sep ∉ a) :
    Split sep (a ++ sep :: b) = a :: Split sep b := by
  induction a with
  | nil => simp [Split]
  | cons c cs ih =>
    have hc : c ≠ sep := fun e => h (by simp [e])
    have hcs : sep ∉ cs := fun e => h (by simp [e])
    simp [Split, hc, ih hcs]

theorem Split_head (sep : Char) (s : Str) :
    (Split sep s)[0]? = some (s.takeWhile (fun c => c != sep)) := by
  induction s with
  | nil => rfl
  | cons c cs ih =>
    unfold Split
    by_cases hc : c = sep
    · simp [hc]
    · simp only [hc, if_false]
      cases hs : Split sep cs with
      | nil => exact absurd hs (Split_ne_nil sep cs)
      | cons p ps =>
        rw [hs] at ih
        simp at ih
        have hb : (c != sep) = true := by simp [hc]
        simp [List.takeWhile, hb, ih]

theorem Split_second_none_iff (sep : Char) (s : Str) :
    (Split sep s)[1]? = none ↔ sep ∉ s := by
  induction s with
  | nil => simp [Split]
  | cons c cs ih =>
    unfold Split
    by_cases hc : c = sep
    · subst hc
      have := Split_ne_nil c cs
      cases hs : Split c cs with
      | nil => exact absurd hs this
      | cons p ps => simp
    · simp only [hc, if_false]
      cases hs : Split sep cs with
      | nil => exact absurd hs (Split_ne_nil sep cs)
      | cons p ps =>
        rw [hs] at ih
        simp at ih ⊢
        rw [ih]
        constructor
        · intro h
          exact ⟨fun e => hc e.symm, h⟩
        · intro h
          exact h.2

/-- The form of the negotiation request, written out. -/
theorem authForm_eq (txSig parent referer : Str) :
    (Values.empty
      |>.Add "tx" txSig
      |>.Add "parent" parent
      |>.Add "referer" referer
      |>.Add "java_version" ""
      |>.Add "flash_version" ""
      |>.Add "screen_resolution_width" "1920"
      |>.Add "screen_resolution_height" "1080"
      |>.Add "color_depth" "24"
      |>.Add "is_cef_browser" "false"
      |>.Add "is_ipad_os" "false") =
    ([("tx", [txSig]), ("parent", [parent]), ("referer", [referer]), ("java_version", [""]),
     ("flash_version", [""]), ("screen_resolution_width", ["1920"]),
     ("screen_resolution_height", ["1080"]), ("color_depth", ["24"]),
     ("is_cef_browser", ["false"]), ("is_ipad_os", ["false"])] : Values) := by
  rfl

/-- The log of `BeginChallenge` once the parent URL parses and the request is built. -/
theorem BeginChallenge_log (lib : Lib) (t : Transport) (log : List Request)
    (parent host sig postAction : Str) (u : Str × Str)
    (hu : lib.urlParse parent = .ok u)
    (hn : lib.newRequestErr ("https://" ++ host ++ "/frame/web/v1/auth" ++ "?" ++
      lib.Encode [("tx", [sig.takeWhile (fun c => c != ':')]), ("parent", [parent]),
        ("v", ["2.6"])]) = none) :
    (BeginChallenge lib t log parent host sig postAction).2 = log ++
      [⟨"https://" ++ host ++ "/frame/web/v1/auth" ++ "?" ++
        lib.Encode [("tx", [sig.takeWhile (fun c => c != ':')]), ("parent", [parent]),
          ("v", ["2.6"])],
        [("tx", [sig.takeWhile (fun c => c != ':')]), ("parent", [parent]),
         ("referer", [u.1 ++ "://" ++ u.2 ++ "/"]), ("java_version", [""]),
         ("flash_version", [""]), ("screen_resolution_width", ["1920"]),
         ("screen_resolution_height", ["1080"]), ("color_depth", ["24"]),
         ("is_cef_browser", ["false"]), ("is_ipad_os", ["false"])]⟩] := by
  unfold BeginChallenge
  simp only [Split_head, hu, hn, PostForm]
  split
  · rename_i h
    simp only [Prod.mk.injEq] at h
    rw [← h.2]; rfl
  · rename_i h
    simp only [Prod.mk.injEq] at h
    split
    · rw [← h.2]; rfl
    · split <;> (rw [← h.2]; rfl)

theorem takeWhile_append_sep (sep : Char) (a b : Str) (h : sep ∉ a) :
    (a ++ sep :: b).takeWhile (fun c => c != sep) = a := by
  induction a with
  | nil => simp [List.takeWhile]
  | cons c cs ih =>
    have hc : (c != sep) = true := by
      have : c ≠ sep := fun e => h (by simp [e])
      simp [this]
    have hcs : sep ∉ cs := fun e => h (by simp [e])
    simp [List.takeWhile, hc, ih hcs]

/-- A signed request `a:b` splits into its two halves. -/
theorem Split_two (a b : Str) (ha : ':' ∉ a) (hb : ':' ∉ b) :
    Split ':' (a ++ ":" ++ b) = [a, b] := by
  have e : a ++ (":" : String).toList ++ b = a ++ ':' :: b := by
    show a ++ [':'] ++ b = a ++ ':' :: b
    simp
  rw [e, Split_append_sep ':' a b ha, Split_of_not_mem ':' b hb]

/-- Only the first piece of the signed request reaches `BeginChallenge`. -/
theorem BeginChallenge_congr (lib : Lib) (t : Transport) (log : List Request)
    (parent host s1 s2 postAction : Str)
    (h : (Split ':' s1)[0]? = (Split ':' s2)[0]?) :
    BeginChallenge lib t log parent host s1 postAction =
      BeginChallenge lib t log parent host s2 postAction := by
  unfold BeginChallenge
  simp only [h]

/-- `BeginChallenge` never panics: the split always has a first piece. -/
theorem BeginChallenge_returns (lib : Lib) (t : Transport) (log : List Request)
    (parent host sig postAction : Str) :
    ∃ r, (BeginChallenge lib t log parent host sig postAction).1 = .returned r := by
  unfold BeginChallenge
  simp only [Split_head, PostForm]
  split
  · exact ⟨_, rfl⟩
  · split
    · exact ⟨_, rfl⟩
    · split
      · exact ⟨_, rfl⟩
      · split
        · exact ⟨_, rfl⟩
        · split <;> exact ⟨_, rfl⟩

/-- What `CompleteAuthWithDuo` does once the parent is accepted and the signed request
has a second piece. -/
theorem CompleteAuthWithDuo_accepted (t : Transport) (log : List Request) (c : Client)
    (final : FinalResponse) (appSig : Str)
    (hp : HasPrefix final.Parent baseURLString = true)
    (hs : (Split ':' c.sigRequest)[1]? = some appSig) :
    CompleteAuthWithDuo t log c final =
      (match t log ⟨final.Parent, [("conversation", [c.conversation]),
          ("sig_response", [final.Cookie ++ ":" ++ appSig])]⟩ with
        | .error e => .returned (some (.urlError e))
        | .ok redirectResp =>
          if redirectResp.StatusCode ≠ 200 then .returned (some .ErrServer)
          else .returned none,
       log ++ [⟨final.Parent, [("conversation", [c.conversation]),
          ("sig_response", [final.Cookie ++ ":" ++ appSig])]⟩]) := by
  unfold CompleteAuthWithDuo
  simp only [hp, hs, PostForm, Bool.not_true, Bool.false_eq_true, if_false]
  split
  · rename_i h
    simp only [Prod.mk.injEq] at h
    rw [h.1, ← h.2]
  · rename_i h
    simp only [Prod.mk.injEq] at h
    rw [h.1, ← h.2]
    dsimp only
    split <;> rfl

/-! ## C7: the parent check of `CompleteAuthWithDuo` -/

/-- C7: a FinalResponse whose Parent does not begin with the Touchstone base URL makes
`CompleteAuthWithDuo` return `ErrBadParent` with the log of requests unchanged; one
whose Parent begins with it never yields `ErrBadParent`, and the only request then
sent, if any, goes to that Parent. -/
theorem CompleteAuthWithDuo_parent_check (t : Transport) (log : List Request)
    (c : Client) (final : FinalResponse) :
    (HasPrefix final.Parent baseURLString = false →
      CompleteAuthWithDuo t log c final = (.returned (some .ErrBadParent), log)) ∧
    (HasPrefix final.Parent baseURLString = true →
      (CompleteAuthWithDuo t log c final).1 ≠ .returned (some .ErrBadParent) ∧
      ((CompleteAuthWithDuo t log c final).2 = log ∨
        ∃ form, (CompleteAuthWithDuo t log c final).2 = log ++ [⟨final.Parent, form⟩])) := by
  constructor
  · intro hp
    unfold CompleteAuthWithDuo
    simp only [hp, Bool.not_false, if_true]
  · intro hp
    cases hs : (Split ':' c.sigRequest)[1]? with
    | none =>
      have e : CompleteAuthWithDuo t log c final = (.panicked "index out of range", log) := by
        unfold CompleteAuthWithDuo
        simp only [hp, hs, Bool.not_true, Bool.false_eq_true, if_false]
      rw [e]
      refine ⟨?_, Or.inl rfl⟩
      intro h; cases h
    | some appSig =>
      rw [CompleteAuthWithDuo_accepted t log c final appSig hp hs]
      refine ⟨?_, Or.inr ⟨_, rfl⟩⟩
      dsimp only
      split
      · intro h; cases h
      · split
        · intro h; cases h
        · intro h; cases h

/-- C7 at two concrete responses: a foreign parent is refused without a request, the
Touchstone parent is not refused. -/
theorem CompleteAuthWithDuo_parent_check_witness :
    CompleteAuthWithDuo (scripted [.ok (okResponse [])]) [] ⟨"abc:def", "conv"⟩
        ⟨"https://evil.example/", "COOKIE"⟩ = (.returned (some .ErrBadParent), []) ∧
    (CompleteAuthWithDuo (scripted [.ok (okResponse [])]) [] ⟨"abc:def", "conv"⟩
        ⟨"https://idp.mit.edu/idp/Authn", "COOKIE"⟩).1 ≠ .returned (some .ErrBadParent) :=
  ⟨(CompleteAuthWithDuo_parent_check _ _ _ _).1 (by decide),
   ((CompleteAuthWithDuo_parent_check _ _ _ _).2 (by decide)).1⟩

/-! ## C6: the two halves of the signed request -/

/-- C6: for a signed request `a:b` with colon-free halves, the negotiation request of
`BeginChallenge` carries `a` as `tx` in the query string and in the form, and the
whole result of `BeginChallenge` is the same whatever the second half is;
`CompleteAuthWithDuo`, for an accepted Parent, sends `sig_response = Cookie:b`, and
its result is the same whatever the first half is. -/
theorem signed_request_halves (lib : Lib) (t : Transport) (log : List Request)
    (parent host postAction a b conv : Str) (final : FinalResponse)
    (ha : ':' ∉ a) (hb : ':' ∉ b) :
    (∀ u, lib.urlParse parent = .ok u →
      lib.newRequestErr ("https://" ++ host ++ "/frame/web/v1/auth" ++ "?" ++
        lib.Encode [("tx", [a]), ("parent", [parent]), ("v", ["2.6"])]) = none →
      (BeginChallenge lib t log parent host (a ++ ":" ++ b) postAction).2 = log ++
        [⟨"https://" ++ host ++ "/frame/web/v1/auth" ++ "?" ++
          lib.Encode [("tx", [a]), ("parent", [parent]), ("v", ["2.6"])],
          [("tx", [a]), ("parent", [parent]),
           ("referer", [u.1 ++ "://" ++ u.2 ++ "/"]), ("java_version", [""]),
           ("flash_version", [""]), ("screen_resolution_width", ["1920"]),
           ("screen_resolution_height", ["1080"]), ("color_depth", ["24"]),
           ("is_cef_browser", ["false"]), ("is_ipad_os", ["false"])]⟩]) ∧
    (∀ b1 : Str, BeginChallenge lib t log parent host (a ++ ":" ++ b1) postAction =
      BeginChallenge lib t log parent host (a ++ ":" ++ b) postAction) ∧
    (HasPrefix final.Parent baseURLString = true →
      (CompleteAuthWithDuo t log ⟨a ++ ":" ++ b, conv⟩ final).2 = log ++
        [⟨final.Parent, [("conversation", [conv]),
          ("sig_response", [final.Cookie ++ ":" ++ b])]⟩] ∧
      ∀ a1 : Str, ':' ∉ a1 →
        CompleteAuthWithDuo t log ⟨a1 ++ ":" ++ b, conv⟩ final =
          CompleteAuthWithDuo t log ⟨a ++ ":" ++ b, conv⟩ final) := by
  have e : ∀ x : Str, a ++ (":" : String).toList ++ x = a ++ ':' :: x := by
    intro x
    show a ++ [':'] ++ x = a ++ ':' :: x
    simp
  have hd : ∀ x : Str, (a ++ (":" : String).toList ++ x).takeWhile (fun c => c != ':') = a := by
    intro x
    rw [e, takeWhile_append_sep ':' a x ha]
  refine ⟨?_, ?_, ?_⟩
  · intro u hu hn
    have h := BeginChallenge_log lib t log parent host (a ++ ":" ++ b) postAction u hu
    rw [hd b] at h
    exact h hn
  · intro b1
    apply BeginChallenge_congr
    rw [Split_head, Split_head, hd b1, hd b]
  · intro hp
    have hs : ∀ a1 : Str, ':' ∉ a1 →
        (Split ':' (Client.mk (a1 ++ ":" ++ b) conv).sigRequest)[1]? = some b := by
      intro a1 ha1
      show (Split ':' (a1 ++ ":" ++ b))[1]? = some b
      rw [Split_two a1 b ha1 hb]
      rfl
    constructor
    · rw [CompleteAuthWithDuo_accepted t log _ final b hp (hs a ha)]
    · intro a1 ha1
      rw [CompleteAuthWithDuo_accepted t log _ final b hp (hs a ha),
        CompleteAuthWithDuo_accepted t log _ final b hp (hs a1 ha1)]

/-- C6 at the signed request `abc:def`: the negotiation sends `tx = abc`, the final
step sends `sig_response = COOKIE:def`. -/
theorem signed_request_halves_witness :
    (BeginChallenge demoLib (scripted [.ok (okResponse examplePage)]) []
        "https://idp.mit.edu/idp/Authn" "api.duosecurity.com" "abc:def" "/idp/Authn").2 =
      [⟨"https://api.duosecurity.com/frame/web/v1/auth?tx=abc&parent=https://idp.mit.edu/idp/Authn&v=2.6&",
        [("tx", ["abc"]), ("parent", ["https://idp.mit.edu/idp/Authn"]),
         ("referer", ["https://idp.mit.edu/"]), ("java_version", [""]),
         ("flash_version", [""]), ("screen_resolution_width", ["1920"]),
         ("screen_resolution_height", ["1080"]), ("color_depth", ["24"]),
         ("is_cef_browser", ["false"]), ("is_ipad_os", ["false"])]⟩] ∧
    (CompleteAuthWithDuo (scripted [.ok (okResponse [])]) [] ⟨"abc:def", "conv"⟩
        ⟨"https://idp.mit.edu/idp/Authn", "COOKIE"⟩).2 =
      [⟨"https://idp.mit.edu/idp/Authn",
        [("conversation", ["conv"]), ("sig_response", ["COOKIE:def"])]⟩] :=
  ⟨(signed_request_halves demoLib (scripted [.ok (okResponse examplePage)]) []
      "https://idp.mit.edu/idp/Authn" "api.duosecurity.com" "/idp/Authn" "abc" "def" "conv"
      ⟨"https://idp.mit.edu/idp/Authn", "COOKIE"⟩ (by decide) (by decide)).1
      ("https", "idp.mit.edu") rfl rfl,
   ((signed_request_halves demoLib (scripted [.ok (okResponse [])]) []
      "https://idp.mit.edu/idp/Authn" "api.duosecurity.com" "/idp/Authn" "abc" "def" "conv"
      ⟨"https://idp.mit.edu/idp/Authn", "COOKIE"⟩ (by decide) (by decide)).2.2
      (by decide)).1⟩

/-! ## C10: a signed request that does not have two parts -/

/-- C10 fails as stated: for the signed requests `abcdef` (no colon) and `a:b:c` (two
colons) `BeginChallenge` issues the negotiation request and returns a Challenge and no
error. -/
theorem BeginChallenge_malformed_counterexample :
    BeginChallenge demoLib (scripted [.ok (okResponse examplePage)]) []
        "https://idp.mit.edu/idp/Authn" "api.duosecurity.com" "abcdef" "/idp/Authn" =
      (.returned (some { Devices := [⟨"0", "iPhone"⟩],
                         Methods := [⟨"Duo Push", "iPhone", "0"⟩],
                         hiddenInputs := [], host := "api.duosecurity.com", txid := [] },
                  none),
       [⟨"https://api.duosecurity.com/frame/web/v1/auth?tx=abcdef&parent=https://idp.mit.edu/idp/Authn&v=2.6&",
        [("tx", ["abcdef"]), ("parent", ["https://idp.mit.edu/idp/Authn"]),
         ("referer", ["https://idp.mit.edu/"]), ("java_version", [""]),
         ("flash_version", [""]), ("screen_resolution_width", ["1920"]),
         ("screen_resolution_height", ["1080"]), ("color_depth", ["24"]),
         ("is_cef_browser", ["false"]), ("is_ipad_os", ["false"])]⟩]) ∧
    (BeginChallenge demoLib (scripted [.ok (okResponse examplePage)]) []
        "https://idp.mit.edu/idp/Authn" "api.duosecurity.com" "a:b:c" "/idp/Authn").1 =
      .returned (some { Devices := [⟨"0", "iPhone"⟩],
                        Methods := [⟨"Duo Push", "iPhone", "0"⟩],
                        hiddenInputs := [], host := "api.duosecurity.com", txid := [] },
                 none) := by
  decide

/-- C10 as amended: `BeginChallenge` does not validate the signed request.  For every
signed request it returns without a panic; once the parent URL parses and the request
is built, it issues the negotiation request with `tx` set to the text before the first
colon (the whole string when there is none).  The index failure arises only in
`CompleteAuthWithDuo`: it panics exactly when the Parent is accepted and the signed
request has no colon; with two or more colons the second part is used as the
application signature. -/
theorem signed_request_not_validated (lib : Lib) (t : Transport) (log : List Request)
    (parent host sig postAction : Str) (c : Client) (final : FinalResponse) :
    (∃ r, (BeginChallenge lib t log parent host sig postAction).1 = .returned r) ∧
    (∀ u, lib.urlParse parent = .ok u →
      lib.newRequestErr ("https://" ++ host ++ "/frame/web/v1/auth" ++ "?" ++
        lib.Encode [("tx", [sig.takeWhile (fun c => c != ':')]), ("parent", [parent]),
          ("v", ["2.6"])]) = none →
      (BeginChallenge lib t log parent host sig postAction).2 = log ++
        [⟨"https://" ++ host ++ "/frame/web/v1/auth" ++ "?" ++
          lib.Encode [("tx", [sig.takeWhile (fun c => c != ':')]), ("parent", [parent]),
            ("v", ["2.6"])],
          [("tx", [sig.takeWhile (fun c => c != ':')]), ("parent", [parent]),
           ("referer", [u.1 ++ "://" ++ u.2 ++ "/"]), ("java_version", [""]),
           ("flash_version", [""]), ("screen_resolution_width", ["1920"]),
           ("screen_resolution_height", ["1080"]), ("color_depth", ["24"]),
           ("is_cef_browser", ["false"]), ("is_ipad_os", ["false"])]⟩]) ∧
    ((∃ msg, (CompleteAuthWithDuo t log c final).1 = .panicked msg) ↔
      (HasPrefix final.Parent baseURLString = true ∧ ':' ∉ c.sigRequest)) ∧
    (∀ p1 p2 more : Str, ':' ∉ p1 → ':' ∉ p2 →
      c.sigRequest = p1 ++ ":" ++ p2 ++ ":" ++ more →
      HasPrefix final.Parent baseURLString = true →
      (CompleteAuthWithDuo t log c final).2 = log ++
        [⟨final.Parent, [("conversation", [c.conversation]),
          ("sig_response", [final.Cookie ++ ":" ++ p2])]⟩]) := by
  refine ⟨BeginChallenge_returns lib t log parent host sig postAction, ?_, ?_, ?_⟩
  · intro u hu hn
    exact BeginChallenge_log lib t log parent host sig postAction u hu hn
  · cases hp : HasPrefix final.Parent baseURLString with
    | false =>
      have e : CompleteAuthWithDuo t log c final = (.returned (some .ErrBadParent), log) := by
        unfold CompleteAuthWithDuo
        simp only [hp, Bool.not_false, if_true]
      rw [e]
      constructor
      · rintro ⟨msg, h⟩; cases h
      · rintro ⟨h, _⟩; cases h
    | true =>
      cases hs : (Split ':' c.sigRequest)[1]? with
      | none =>
        have e : CompleteAuthWithDuo t log c final =
            (.panicked "index out of range", log) := by
          unfold CompleteAuthWithDuo
          simp only [hp, hs, Bool.not_true, Bool.false_eq_true, if_false]
        rw [e]
        constructor
        · intro _
          exact ⟨rfl, (Split_second_none_iff ':' c.sigRequest).1 hs⟩
        · intro _
          exact ⟨_, rfl⟩
      | some appSig =>
        rw [CompleteAuthWithDuo_accepted t log c final appSig hp hs]
        constructor
        · rintro ⟨msg, h⟩
          dsimp only at h
          split at h
          · cases h
          · split at h <;> cases h
        · rintro ⟨_, h⟩
          rw [(Split_second_none_iff ':' c.sigRequest).2 h] at hs
          cases hs
  · intro p1 p2 more h1 h2 hsig hp
    have e : p1 ++ (":" : String).toList ++ p2 ++ (":" : String).toList ++ more =
        p1 ++ ':' :: (p2 ++ ':' :: more) := by
      show p1 ++ [':'] ++ p2 ++ [':'] ++ more = _
      simp only [List.append_assoc, List.singleton_append, List.cons_append, List.nil_append]
    have hs : (Split ':' c.sigRequest)[1]? = some p2 := by
      rw [hsig, e, Split_append_sep ':' p1 _ h1, Split_append_sep ':' p2 _ h2]
      simp only [List.getElem?_cons_succ, List.getElem?_cons_zero]
    rw [CompleteAuthWithDuo_accepted t log c final p2 hp hs]

/-- C10 as amended, at the signed requests `abcdef` and `a:b:c`: the negotiation
request carries `tx = abcdef`; the final step for `a:b:c` sends `COOKIE:b`. -/
theorem signed_request_not_validated_witness :
    (BeginChallenge demoLib (scripted []) [] "https://idp.mit.edu/idp/Authn"
        "api.duosecurity.com" "abcdef" "/idp/Authn").2 =
      [⟨"https://api.duosecurity.com/frame/web/v1/auth?tx=abcdef&parent=https://idp.mit.edu/idp/Authn&v=2.6&",
        [("tx", ["abcdef"]), ("parent", ["https://idp.mit.edu/idp/Authn"]),
         ("referer", ["https://idp.mit.edu/"]), ("java_version", [""]),
         ("flash_version", [""]), ("screen_resolution_width", ["1920"]),
         ("screen_resolution_height", ["1080"]), ("color_depth", ["24"]),
         ("is_cef_browser", ["false"]), ("is_ipad_os", ["false"])]⟩] ∧
    (CompleteAuthWithDuo (scripted [.ok (okResponse [])]) [] ⟨"a:b:c", "conv"⟩
        ⟨"https://idp.mit.edu/idp/Authn", "COOKIE"⟩).2 =
      [⟨"https://idp.mit.edu/idp/Authn",
        [("conversation", ["conv"]), ("sig_response", ["COOKIE:b"])]⟩] :=
  ⟨(signed_request_not_validated demoLib (scripted []) [] "https://idp.mit.edu/idp/Authn"
      "api.duosecurity.com" "abcdef" "/idp/Authn" ⟨"abcdef", "conv"⟩
      ⟨"https://idp.mit.edu/idp/Authn", "COOKIE"⟩).2.1 ("https", "idp.mit.edu") rfl rfl,
   (signed_request_not_validated demoLib (scripted [.ok (okResponse [])]) []
      "https://idp.mit.edu/idp/Authn" "api.duosecurity.com" "a:b:c" "/idp/Authn"
      ⟨"a:b:c", "conv"⟩ ⟨"https://idp.mit.edu/idp/Authn", "COOKIE"⟩).2.2.2
      "a" "b" "c" (by decide) (by decide) rfl (by decide)⟩

/-! ## C2: a poll that does not report success -/

/-- C2: when the transport answers the status POST and the reply decodes with a Result
other than `SUCCESS`, the status POST is the only request `WaitForCompletion` issues
and the Challenge is unchanged; when moreover the reply is delivered whole (its body
closes without error), `WaitForCompletion` returns no FinalResponse, the decoded
ChallengeResponse as received and no error. -/
theorem WaitForCompletion_not_success (lib : Lib) (t : Transport) (log : List Request)
    (c : Challenge) (completionResp : Response) (w : challengeResponseWrapper)
    (ht : t log ⟨"https://" ++ c.host ++ "/frame/status",
      [("sid", [c.hiddenInputs.Get "sid"]), ("txid", [c.txid])]⟩ = .ok completionResp)
    (hd : lib.decodeChallenge completionResp.Body = .ok w)
    (hr : w.Response.Result ≠ ("SUCCESS" : Str)) :
    (WaitForCompletion lib t log c).2 =
      (c, log ++ [⟨"https://" ++ c.host ++ "/frame/status",
        [("sid", [c.hiddenInputs.Get "sid"]), ("txid", [c.txid])]⟩]) ∧
    (completionResp.Body.closeErr = none →
      (WaitForCompletion lib t log c).1 = (none, some w.Response, none)) := by
  unfold WaitForCompletion
  simp only [PostForm, ht, hd]
  cases hc : completionResp.Body.closeErr with
  | some e => simp only [reduceCtorEq, false_implies, and_self]
  | none => simp only [hr, if_false, true_implies, and_self]

/-- C2 at a poll answering `WAITING`. -/
theorem WaitForCompletion_not_success_witness :
    (WaitForCompletion demoLib (scripted [.ok (okResponse "OK|WAITING|")]) []
        { exampleChallenge with txid := "TX1" }).1 =
      (none, some ⟨[], "WAITING", [], [], [], []⟩, none) ∧
    (WaitForCompletion demoLib (scripted [.ok (okResponse "OK|WAITING|")]) []
        { exampleChallenge with txid := "TX1" }).2 =
      ({ exampleChallenge with txid := "TX1" },
        [⟨"https://api.duosecurity.com/frame/status", [("sid", ["SID1"]), ("txid", ["TX1"])]⟩]) :=
  have h := WaitForCompletion_not_success demoLib (scripted [.ok (okResponse "OK|WAITING|")])
    [] { exampleChallenge with txid := "TX1" } (okResponse "OK|WAITING|")
    ⟨⟨[], "WAITING", [], [], [], []⟩, "OK"⟩ rfl rfl (by decide)
  ⟨h.2 rfl, h.1⟩

/-! ## C5: a prompt reply whose envelope is not `OK` -/

/-- C5: when the transport answers the prompt POST and the reply decodes with a
`stat` other than `OK`, `StartMethod` issues no status POST and leaves the Challenge,
its `txid` included, as it was; when moreover the reply is delivered whole (its body
closes without error), it returns `(nil, ErrDuoServer)`. -/
theorem StartMethod_server_error (lib : Lib) (t : Transport) (log : List Request)
    (c : Challenge) (method : Method) (promptResp : Response) (w : promptResponseWrapper)
    (ht : t log ⟨"https://" ++ c.host ++ "/frame/prompt",
      [("sid", [c.hiddenInputs.Get "sid"]), ("device", [method.DeviceIndex]),
       ("factor", [method.FriendlyName]), ("out_of_date", [""]),
       ("days_out_of_date", [""]), ("days_to_block", [""])]⟩ = .ok promptResp)
    (hd : lib.decodePrompt promptResp.Body = .ok w)
    (hs : w.Stat ≠ ("OK" : Str)) :
    (StartMethod lib t log c method).2 =
      (c, log ++ [⟨"https://" ++ c.host ++ "/frame/prompt",
        [("sid", [c.hiddenInputs.Get "sid"]), ("device", [method.DeviceIndex]),
         ("factor", [method.FriendlyName]), ("out_of_date", [""]),
         ("days_out_of_date", [""]), ("days_to_block", [""])]⟩]) ∧
    (StartMethod lib t log c method).2.1.txid = c.txid ∧
    (promptResp.Body.closeErr = none →
      (StartMethod lib t log c method).1 = (none, some .ErrDuoServer)) := by
  unfold StartMethod
  simp only [PostForm, ht, hd]
  cases hc : promptResp.Body.closeErr with
  | some e => simp only [reduceCtorEq, false_implies, and_self]
  | none => simp only [hs, ne_eq, not_false_eq_true, if_true, true_implies, and_self]

/-- C5 at a prompt reply with `stat` `FAIL`. -/
theorem StartMethod_server_error_witness :
    (StartMethod demoLib (scripted [.ok (okResponse "FAIL|TX1|")]) [] exampleChallenge
        ⟨"Duo Push", "iPhone", "0"⟩).1 = (none, some .ErrDuoServer) ∧
    (StartMethod demoLib (scripted [.ok (okResponse "FAIL|TX1|")]) [] exampleChallenge
        ⟨"Duo Push", "iPhone", "0"⟩).2.1.txid = [] :=
  have h := StartMethod_server_error demoLib (scripted [.ok (okResponse "FAIL|TX1|")]) []
    exampleChallenge ⟨"Duo Push", "iPhone", "0"⟩ (okResponse "FAIL|TX1|") ⟨⟨"TX1"⟩, "FAIL"⟩
    rfl rfl (by decide)
  ⟨h.2.2 rfl, h.2.1⟩

/-! ## Lemmas on `url.Values` and the hidden inputs -/

theorem Values.Get_eq_first (v : Values) (key : Str) :
    v.Get key = (v.first? key).getD [] := by
  induction v with
  | nil => rfl
  | cons kv rest ih =>
    obtain ⟨k, vs⟩ := kv
    unfold Values.Get Values.first?
    by_cases h : k = key
    · simp only [h, if_true]
      cases vs <;> rfl
    · simp only [h, if_false]
      exact ih

theorem Values.first_Add (v : Values) (k x key : Str) :
    (v.Add k x).first? key =
      if k = key then some ((v.first? k).getD x) else v.first? key := by
  induction v with
  | nil =>
    unfold Values.Add Values.first?
    by_cases h : k = key
    · simp [h, Values.first?]
    · simp [h, Values.first?]
  | cons kv rest ih =>
    obtain ⟨k1, vs⟩ := kv
    unfold Values.Add
    by_cases h1 : k1 = k
    · subst h1
      simp only [if_true]
      by_cases h : k1 = key
      · subst h
        simp only [Values.first?, if_true]
        cases vs <;> simp
      · simp only [Values.first?, h, if_false]
    · simp only [h1, if_false]
      by_cases h : k = key
      · subst h
        simp only [Values.first?, h1, if_false, if_true]
        rw [ih]
        simp
      · simp only [h, if_false] at ih ⊢
        by_cases h2 : k1 = key
        · simp only [Values.first?, h2, if_true]
        · simp only [Values.first?, h2, if_false]
          exact ih

/-- The first value of a key other than `factor` after the loop over the inputs: the
one already there, else the value of the first input of that name. -/
theorem hiddenLoop_first (lib : Lib) (key : Str) (hk : key ≠ ("factor" : Str))
    (inputs : List (List Str)) (v : Values) :
    (hiddenLoop lib inputs v).first? key =
      match v.first? key with
      | some s => some s
      | none =>
        (inputs.find? (fun g => g.getD 1 [] = key)).map fun g =>
          lib.UnescapeString (g.getD 2 []) := by
  induction inputs generalizing v with
  | nil =>
    unfold hiddenLoop
    cases v.first? key <;> rfl
  | cons g rest ih =>
    unfold hiddenLoop
    by_cases hf : g.getD 1 [] = ("factor" : Str)
    · have hne : ¬ g.getD 1 [] = key := fun e => hk (e ▸ hf)
      simp only [hf, ne_eq, not_true_eq_false, if_false]
      rw [ih]
      simp only [List.find?, hf]
      have : decide (("factor" : String).toList = key) = false := by
        simp only [decide_eq_false_iff_not]
        exact fun e => hk e.symm
      simp only [this]
    · simp only [ne_eq, hf, not_false_eq_true, if_true]
      rw [ih, Values.first_Add]
      by_cases hg : g.getD 1 [] = key
      · simp only [hg, if_true, List.find?, decide_True, Option.map_some']
        cases v.first? key <;> rfl
      · simp only [hg, if_false, List.find?, decide_False]

/-- The `sid` that `parseChallenge` stores is the first hidden input named `sid`. -/
theorem parseChallenge_sid (lib : Lib) (host body : Str) :
    (parseChallenge lib host body).hiddenInputs.Get "sid" =
      firstHiddenInput lib "sid" body := by
  unfold parseChallenge firstHiddenInput
  simp only
  rw [Values.Get_eq_first, hiddenLoop_first lib "sid" (by decide)]
  simp only [Values.empty, Values.first?]
  cases List.find? _ (FindAllStringSubmatch inputRegex body) <;> rfl

/-! ## The paths of `StartMethod` and `WaitForCompletion` -/

/-- `StartMethod` when the transport fails on the prompt POST. -/
theorem StartMethod_prompt_failed (lib : Lib) (t : Transport) (log : List Request)
    (c : Challenge) (method : Method) (e : Str)
    (hp : t log (promptRequest c.host (c.hiddenInputs.Get "sid") method) = .error e) :
    StartMethod lib t log c method =
      ((none, some (.urlError e)), c,
        log ++ [promptRequest c.host (c.hiddenInputs.Get "sid") method]) := by
  simp only [promptRequest] at hp
  unfold StartMethod
  simp only [PostForm, hp, promptRequest]

/-- `StartMethod` when the transport answers the prompt POST: no status POST unless
the reply decodes, closes and has the envelope `OK`. -/
theorem StartMethod_prompt_answered (lib : Lib) (t : Transport) (log : List Request)
    (c : Challenge) (method : Method) (promptResp : Response)
    (hp : t log (promptRequest c.host (c.hiddenInputs.Get "sid") method) = .ok promptResp) :
    StartMethod lib t log c method =
      match lib.decodePrompt promptResp.Body with
      | .error e => ((none, some (.ioError e)), c,
          log ++ [promptRequest c.host (c.hiddenInputs.Get "sid") method])
      | .ok w =>
        match promptResp.Body.closeErr with
        | some e => ((none, some (.ioError e)), c,
            log ++ [promptRequest c.host (c.hiddenInputs.Get "sid") method])
        | none =>
          if w.Stat ≠ ("OK" : Str) then ((none, some .ErrDuoServer), c,
            log ++ [promptRequest c.host (c.hiddenInputs.Get "sid") method])
          else
            match t (log ++ [promptRequest c.host (c.hiddenInputs.Get "sid") method])
                (statusRequest c.host (c.hiddenInputs.Get "sid") w.Response.TxID) with
            | .error e => ((none, some (.urlError e)), c,
                log ++ [promptRequest c.host (c.hiddenInputs.Get "sid") method,
                  statusRequest c.host (c.hiddenInputs.Get "sid") w.Response.TxID])
            | .ok statusResp =>
              (match lib.decodeStatus statusResp.Body with
                | .error e => (none, some (.ioError e))
                | .ok ws =>
                  match statusResp.Body.closeErr with
                  | some e => (none, some (.ioError e))
                  | none => (some ws.Response, none),
               { c with txid := w.Response.TxID },
               log ++ [promptRequest c.host (c.hiddenInputs.Get "sid") method,
                  statusRequest c.host (c.hiddenInputs.Get "sid") w.Response.TxID]) := by
  simp only [promptRequest] at hp
  unfold StartMethod
  simp only [PostForm, hp, promptRequest, statusRequest]
  cases lib.decodePrompt promptResp.Body with
  | error e => rfl
  | ok w =>
    simp only []
    cases promptResp.Body.closeErr with
    | some e => rfl
    | none =>
      simp only []
      by_cases hs : w.Stat = ("OK" : Str)
      · simp only [hs, ne_eq, not_true_eq_false, if_false, List.append_assoc,
          List.singleton_append]
        cases t _ _ with
        | error e => rfl
        | ok statusResp =>
          simp only []
          cases lib.decodeStatus statusResp.Body with
          | error e => rfl
          | ok ws =>
            simp only []
            cases statusResp.Body.closeErr <;> rfl
      · simp only [hs, ne_eq, not_false_eq_true, if_true]

/-- `WaitForCompletion` when the transport fails on the status POST. -/
theorem WaitForCompletion_poll_failed (lib : Lib) (t : Transport) (log : List Request)
    (c : Challenge) (e : Str)
    (hp : t log (statusRequest c.host (c.hiddenInputs.Get "sid") c.txid) = .error e) :
    WaitForCompletion lib t log c =
      ((none, none, some (.urlError e)), c,
        log ++ [statusRequest c.host (c.hiddenInputs.Get "sid") c.txid]) := by
  simp only [statusRequest] at hp
  unfold WaitForCompletion
  simp only [PostForm, hp, statusRequest]

/-- `WaitForCompletion` when the transport answers the status POST: the final POST is
issued exactly when the reply decodes, closes and reports `SUCCESS`. -/
theorem WaitForCompletion_poll_answered (lib : Lib) (t : Transport) (log : List Request)
    (c : Challenge) (completionResp : Response)
    (hp : t log (statusRequest c.host (c.hiddenInputs.Get "sid") c.txid) =
      .ok completionResp) :
    WaitForCompletion lib t log c =
      match lib.decodeChallenge completionResp.Body with
      | .error e => ((none, none, some (.ioError e)), c,
          log ++ [statusRequest c.host (c.hiddenInputs.Get "sid") c.txid])
      | .ok w =>
        match completionResp.Body.closeErr with
        | some e => ((none, none, some (.ioError e)), c,
            log ++ [statusRequest c.host (c.hiddenInputs.Get "sid") c.txid])
        | none =>
          if w.Response.Result = ("SUCCESS" : Str) then
            (match t (log ++ [statusRequest c.host (c.hiddenInputs.Get "sid") c.txid])
                (finalRequest c.host (c.hiddenInputs.Get "sid") w.Response.ResultURL) with
              | .error e => (none, none, some (.urlError e))
              | .ok finalResp =>
                match lib.decodeFinal finalResp.Body with
                | .error e => (none, none, some (.ioError e))
                | .ok w2 =>
                  match finalResp.Body.closeErr with
                  | some e => (none, none, some (.ioError e))
                  | none => (some w2.Response, some w.Response, none),
             c,
             log ++ [statusRequest c.host (c.hiddenInputs.Get "sid") c.txid,
               finalRequest c.host (c.hiddenInputs.Get "sid") w.Response.ResultURL])
          else ((none, some w.Response, none), c,
            log ++ [statusRequest c.host (c.hiddenInputs.Get "sid") c.txid]) := by
  simp only [statusRequest] at hp
  unfold WaitForCompletion
  simp only [PostForm, hp, statusRequest, finalRequest]
  cases lib.decodeChallenge completionResp.Body with
  | error e => rfl
  | ok w =>
    simp only []
    cases completionResp.Body.closeErr with
    | some e => rfl
    | none =>
      simp only []
      by_cases hs : w.Response.Result = ("SUCCESS" : Str)
      · simp only [hs, if_true, List.append_assoc, List.singleton_append]
        cases t _ _ with
        | error e => rfl
        | ok finalResp =>
          simp only []
          cases lib.decodeFinal finalResp.Body with
          | error e => rfl
          | ok w2 =>
            simp only []
            cases finalResp.Body.closeErr <;> rfl
      · simp only [hs, if_false]

/-- `WaitForCompletion` never changes the Challenge. -/
theorem WaitForCompletion_challenge (lib : Lib) (t : Transport) (log : List Request)
    (c : Challenge) : (WaitForCompletion lib t log c).2.1 = c := by
  cases hp : t log (statusRequest c.host (c.hiddenInputs.Get "sid") c.txid) with
  | error e => rw [WaitForCompletion_poll_failed lib t log c e hp]
  | ok completionResp =>
    rw [WaitForCompletion_poll_answered lib t log c completionResp hp]
    cases lib.decodeChallenge completionResp.Body with
    | error e => rfl
    | ok w =>
      simp only []
      cases completionResp.Body.closeErr with
      | some e => rfl
      | none =>
        simp only []
        split <;> rfl

/-! ## C3: a successful poll after `StartMethod` -/

/-- What a successful `StartMethod` did: the `txid` is set and the log holds the
prompt POST and the status POST, both with the `sid` of the Challenge. -/
theorem StartMethod_ok (lib : Lib) (t : Transport) (log : List Request) (c : Challenge)
    (method : Method) (sr : StatusResponse)
    (h : (StartMethod lib t log c method).1 = (some sr, none)) :
    ∃ txid, (StartMethod lib t log c method).2 =
      ({ c with txid := txid },
        log ++ [promptRequest c.host (c.hiddenInputs.Get "sid") method,
          statusRequest c.host (c.hiddenInputs.Get "sid") txid]) := by
  cases hp : t log (promptRequest c.host (c.hiddenInputs.Get "sid") method) with
  | error e =>
    rw [StartMethod_prompt_failed lib t log c method e hp] at h
    cases h
  | ok promptResp =>
    rw [StartMethod_prompt_answered lib t log c method promptResp hp] at h ⊢
    cases hw : lib.decodePrompt promptResp.Body with
    | error e => rw [hw] at h; cases h
    | ok w =>
      rw [hw] at h
      simp only [] at h ⊢
      cases hcl : promptResp.Body.closeErr with
      | some e => rw [hcl] at h; cases h
      | none =>
        rw [hcl] at h
        simp only [] at h ⊢
        by_cases hs : w.Stat = ("OK" : Str)
        · simp only [hs, ne_eq, not_true_eq_false, if_false] at h ⊢
          cases ht : t (log ++ [promptRequest c.host (c.hiddenInputs.Get "sid") method])
              (statusRequest c.host (c.hiddenInputs.Get "sid") w.Response.TxID) with
          | error e => rw [ht] at h; cases h
          | ok statusResp => exact ⟨w.Response.TxID, rfl⟩
        · simp only [hs, ne_eq, not_false_eq_true, if_true] at h
          cases h

/-- C3: after a successful `StartMethod`, when the reply to the poll of the following
`WaitForCompletion` is delivered and decodes with Result `SUCCESS` and result URL `r`,
`WaitForCompletion` issues exactly one further POST, to `https://` + host + `r`; the
four requests (prompt, status, status, final) all carry the `sid` of the Challenge; when
the reply to the final POST is delivered and decodes, its FinalResponse is returned
together with the ChallengeResponse and no error.  The `sid` of a negotiated Challenge
is the first hidden input named `sid` of the page. -/
theorem StartMethod_then_WaitForCompletion_success (lib : Lib) (t : Transport)
    (log : List Request) (c : Challenge) (method : Method) (sr : StatusResponse)
    (txid : Str) (completionResp : Response) (w : challengeResponseWrapper)
    (hstart : (StartMethod lib t log c method).1 = (some sr, none))
    (htx : (StartMethod lib t log c method).2.1.txid = txid)
    (hp : t (StartMethod lib t log c method).2.2
      (statusRequest c.host (c.hiddenInputs.Get "sid") txid) = .ok completionResp)
    (hd : lib.decodeChallenge completionResp.Body = .ok w)
    (hc : completionResp.Body.closeErr = none)
    (hr : w.Response.Result = ("SUCCESS" : Str)) :
      (StartMethod lib t log c method).2 =
        ({ c with txid := txid },
          log ++ [promptRequest c.host (c.hiddenInputs.Get "sid") method,
            statusRequest c.host (c.hiddenInputs.Get "sid") txid]) ∧
      (WaitForCompletion lib t (StartMethod lib t log c method).2.2
          (StartMethod lib t log c method).2.1).2.2 =
        log ++ [promptRequest c.host (c.hiddenInputs.Get "sid") method,
          statusRequest c.host (c.hiddenInputs.Get "sid") txid,
          statusRequest c.host (c.hiddenInputs.Get "sid") txid,
          finalRequest c.host (c.hiddenInputs.Get "sid") w.Response.ResultURL] ∧
      finalRequest c.host (c.hiddenInputs.Get "sid") w.Response.ResultURL =
        ⟨"https://" ++ c.host ++ w.Response.ResultURL,
          [("sid", [c.hiddenInputs.Get "sid"])]⟩ ∧
      (∀ finalResp w2,
        t (log ++ [promptRequest c.host (c.hiddenInputs.Get "sid") method,
            statusRequest c.host (c.hiddenInputs.Get "sid") txid,
            statusRequest c.host (c.hiddenInputs.Get "sid") txid])
          (finalRequest c.host (c.hiddenInputs.Get "sid") w.Response.ResultURL) =
            .ok finalResp →
        lib.decodeFinal finalResp.Body = .ok w2 →
        finalResp.Body.closeErr = none →
        (WaitForCompletion lib t (StartMethod lib t log c method).2.2
          (StartMethod lib t log c method).2.1).1 =
          (some w2.Response, some w.Response, none)) ∧
      (∀ host body, c = parseChallenge lib host body →
        c.hiddenInputs.Get "sid" = firstHiddenInput lib "sid" body) := by
  obtain ⟨txid1, hs⟩ := StartMethod_ok lib t log c method sr hstart
  have e : txid1 = txid := by rw [← htx, hs]
  rw [e] at hs
  refine ⟨hs, ?_⟩
  rw [hs] at hp ⊢
  simp only [] at hp ⊢
  have hw := WaitForCompletion_poll_answered lib t
    (log ++ [promptRequest c.host (c.hiddenInputs.Get "sid") method,
      statusRequest c.host (c.hiddenInputs.Get "sid") txid])
    { c with txid := txid } completionResp hp
  simp only [hd, hc, hr, if_true] at hw
  refine ⟨?_, rfl, ?_, ?_⟩
  · rw [hw]
    simp only [List.append_assoc, List.cons_append, List.nil_append]
  · intro finalResp w2 hf hdf hcf
    rw [hw]
    have hf2 : t (log ++ [promptRequest c.host (c.hiddenInputs.Get "sid") method,
        statusRequest c.host (c.hiddenInputs.Get "sid") txid] ++
        [statusRequest c.host (c.hiddenInputs.Get "sid") txid])
        (finalRequest c.host (c.hiddenInputs.Get "sid") w.Response.ResultURL) =
          .ok finalResp := by
      rw [← hf]
      simp only [List.append_assoc, List.cons_append, List.nil_append]
    simp only [hf2, hdf, hcf]
  · intro host body hcb
    rw [hcb]
    exact parseChallenge_sid lib host body

/-- C3 on a scripted run: prompt, status, a poll answering `SUCCESS` with the result
URL `/frame/result`, and the final reply. -/
theorem StartMethod_then_WaitForCompletion_success_witness :
    (WaitForCompletion demoLib
        (scripted [.ok (okResponse "OK|TX1|"), .ok (okResponse "OK|pushed|Pushed"),
          .ok (okResponse "OK|SUCCESS|/frame/result"),
          .ok (okResponse "OK|https://idp.mit.edu/idp/Authn|COOKIE")])
        (StartMethod demoLib
          (scripted [.ok (okResponse "OK|TX1|"), .ok (okResponse "OK|pushed|Pushed"),
            .ok (okResponse "OK|SUCCESS|/frame/result"),
            .ok (okResponse "OK|https://idp.mit.edu/idp/Authn|COOKIE")])
          [] exampleChallenge ⟨"Duo Push", "iPhone", "0"⟩).2.2
        (StartMethod demoLib
          (scripted [.ok (okResponse "OK|TX1|"), .ok (okResponse "OK|pushed|Pushed"),
            .ok (okResponse "OK|SUCCESS|/frame/result"),
            .ok (okResponse "OK|https://idp.mit.edu/idp/Authn|COOKIE")])
          [] exampleChallenge ⟨"Duo Push", "iPhone", "0"⟩).2.1).1 =
      (some ⟨"https://idp.mit.edu/idp/Authn", "COOKIE"⟩,
       some ⟨[], "SUCCESS", "/frame/result", [], [], []⟩, none) :=
  (StartMethod_then_WaitForCompletion_success demoLib
    (scripted [.ok (okResponse "OK|TX1|"), .ok (okResponse "OK|pushed|Pushed"),
      .ok (okResponse "OK|SUCCESS|/frame/result"),
      .ok (okResponse "OK|https://idp.mit.edu/idp/Authn|COOKIE")])
    [] exampleChallenge ⟨"Duo Push", "iPhone", "0"⟩ ⟨"pushed", "Pushed"⟩ "TX1"
    (okResponse "OK|SUCCESS|/frame/result") ⟨⟨[], "SUCCESS", "/frame/result", [], [], []⟩, "OK"⟩
    (by decide) (by decide) rfl rfl rfl rfl).2.2.2.1
    (okResponse "OK|https://idp.mit.edu/idp/Authn|COOKIE")
    ⟨⟨"https://idp.mit.edu/idp/Authn", "COOKIE"⟩, "OK"⟩ rfl rfl rfl

/-! ## C4: the envelope of the replies after the prompt -/

/-- C4 at three replies whose envelope is `FAIL`: the status reply read by
`StartMethod`, the poll reply and the final reply read by `WaitForCompletion`.  In
each case the payload is returned and the error is nil, where the claim asks for
`ErrDuoServer` and no payload. -/
theorem stat_unchecked_after_prompt :
    (StartMethod demoLib
        (scripted [.ok (okResponse "OK|TX1|"), .ok (okResponse "FAIL|denied|Denied")]) []
        exampleChallenge ⟨"Duo Push", "iPhone", "0"⟩).1 =
      (some ⟨"denied", "Denied"⟩, none) ∧
    (WaitForCompletion demoLib (scripted [.ok (okResponse "FAIL|WAITING|")]) []
        { exampleChallenge with txid := "TX1" }).1 =
      (none, some ⟨[], "WAITING", [], [], [], []⟩, none) ∧
    (WaitForCompletion demoLib
        (scripted [.ok (okResponse "OK|SUCCESS|/frame/result"),
          .ok (okResponse "FAIL|https://idp.mit.edu/idp/Authn|COOKIE")]) []
        { exampleChallenge with txid := "TX1" }).1 =
      (some ⟨"https://idp.mit.edu/idp/Authn", "COOKIE"⟩,
       some ⟨[], "SUCCESS", "/frame/result", [], [], []⟩, none) := by
  decide

/-! ## C8: when `txid` changes -/

/-- C8 fails as stated: the prompt reply is `OK` with `TX1`, the status POST is
answered with a body that does not decode; `StartMethod` returns an error, and the
`txid`, empty before, is `TX1` after the call. -/
theorem StartMethod_error_sets_txid_counterexample :
    exampleChallenge.txid = [] ∧
    StartMethod demoLib
        (scripted [.ok (okResponse "OK|TX1|"), .ok (okResponse "<html>")]) []
        exampleChallenge ⟨"Duo Push", "iPhone", "0"⟩ =
      ((none, some (.ioError "unexpected end of JSON input")),
       { exampleChallenge with txid := "TX1" },
       [promptRequest "api.duosecurity.com" "SID1" ⟨"Duo Push", "iPhone", "0"⟩,
        statusRequest "api.duosecurity.com" "SID1" "TX1"]) := by
  decide

/-- The `txid` after `StartMethod`, when its status POST was answered. -/
theorem StartMethod_txid_set (lib : Lib) (t : Transport) (log : List Request)
    (c : Challenge) (method : Method) (txid : Str)
    (h : StatusPostAnswered lib t log c method txid) :
    (StartMethod lib t log c method).2.1 = { c with txid := txid } := by
  obtain ⟨promptResp, w, statusResp, hp, hw, hcl, hs, htx, ht⟩ := h
  rw [StartMethod_prompt_answered lib t log c method promptResp hp]
  subst htx
  simp only [hw, hcl, hs, ne_eq, not_true_eq_false, if_false, ht]

/-- The Challenge after `StartMethod`, when its status POST was not answered. -/
theorem StartMethod_txid_kept (lib : Lib) (t : Transport) (log : List Request)
    (c : Challenge) (method : Method)
    (h : ¬ ∃ txid, StatusPostAnswered lib t log c method txid) :
    (StartMethod lib t log c method).2.1 = c := by
  cases hp : t log (promptRequest c.host (c.hiddenInputs.Get "sid") method) with
  | error e => rw [StartMethod_prompt_failed lib t log c method e hp]
  | ok promptResp =>
    rw [StartMethod_prompt_answered lib t log c method promptResp hp]
    cases hw : lib.decodePrompt promptResp.Body with
    | error e => rfl
    | ok w =>
      simp only []
      cases hcl : promptResp.Body.closeErr with
      | some e => rfl
      | none =>
        simp only []
        by_cases hs : w.Stat = ("OK" : Str)
        · simp only [hs, ne_eq, not_true_eq_false, if_false]
          cases ht : t (log ++ [promptRequest c.host (c.hiddenInputs.Get "sid") method])
              (statusRequest c.host (c.hiddenInputs.Get "sid") w.Response.TxID) with
          | error e => rfl
          | ok statusResp =>
            exact absurd ⟨w.Response.TxID, promptResp, w, statusResp, hp, hw, hcl, hs, rfl, ht⟩ h
        · simp only [hs, ne_eq, not_false_eq_true, if_true]

/-- The Challenge that `BeginChallenge` returns has an empty `txid`. -/
theorem BeginChallenge_txid (lib : Lib) (t : Transport) (log : List Request)
    (parent host sig postAction : Str) (ch : Challenge) (e : Option Error)
    (h : (BeginChallenge lib t log parent host sig postAction).1 = .returned (some ch, e)) :
    ch.txid = [] := by
  unfold BeginChallenge at h
  simp only [Split_head, PostForm] at h
  split at h
  · cases h
  · split at h
    · cases h
    · split at h
      · cases h
      · split at h
        · cases h
        · split at h
          · cases h
          · simp only [Outcome.returned.injEq, Prod.mk.injEq, Option.some.injEq] at h
            rw [← h.1]
            rfl

/-- C8 as amended: the Challenge that `BeginChallenge` returns has an empty `txid`;
`WaitForCompletion` never changes the Challenge; `StartMethod` sets `txid` to the
`TxID` of the prompt reply as soon as the transport has answered its status POST,
whatever it returns afterwards, and leaves the Challenge unchanged when it returns
before that. -/
theorem txid_changes_only_after_status_post (lib : Lib) (t : Transport)
    (log : List Request) (c : Challenge) (method : Method)
    (parent host sig postAction : Str) :
    (∀ ch e, (BeginChallenge lib t log parent host sig postAction).1 =
        .returned (some ch, e) → ch.txid = []) ∧
    (WaitForCompletion lib t log c).2.1 = c ∧
    (∀ txid, StatusPostAnswered lib t log c method txid →
      (StartMethod lib t log c method).2.1 = { c with txid := txid }) ∧
    ((¬ ∃ txid, StatusPostAnswered lib t log c method txid) →
      (StartMethod lib t log c method).2.1 = c) :=
  ⟨fun ch e h => BeginChallenge_txid lib t log parent host sig postAction ch e h,
   WaitForCompletion_challenge lib t log c,
   fun txid h => StartMethod_txid_set lib t log c method txid h,
   fun h => StartMethod_txid_kept lib t log c method h⟩

/-- C8 as amended, on three runs: a negotiation, a `StartMethod` whose status POST is
answered, and one whose prompt POST fails. -/
theorem txid_changes_only_after_status_post_witness :
    (parseChallenge demoLib "api.duosecurity.com" examplePage).txid = [] ∧
    (StartMethod demoLib
        (scripted [.ok (okResponse "OK|TX1|"), .ok (okResponse "<html>")]) []
        exampleChallenge ⟨"Duo Push", "iPhone", "0"⟩).2.1 =
      { exampleChallenge with txid := "TX1" } ∧
    (StartMethod demoLib (scripted []) [] exampleChallenge ⟨"Duo Push", "iPhone", "0"⟩).2.1 =
      exampleChallenge :=
  ⟨(txid_changes_only_after_status_post demoLib
      (scripted [.ok (okResponse examplePage)]) [] exampleChallenge
      ⟨"Duo Push", "iPhone", "0"⟩ "https://idp.mit.edu/idp/Authn" "api.duosecurity.com"
      "abc:def" "/idp/Authn").1
      (parseChallenge demoLib "api.duosecurity.com" examplePage) none rfl,
   (txid_changes_only_after_status_post demoLib
      (scripted [.ok (okResponse "OK|TX1|"), .ok (okResponse "<html>")]) []
      exampleChallenge ⟨"Duo Push", "iPhone", "0"⟩ [] [] [] []).2.2.1 "TX1"
      ⟨okResponse "OK|TX1|", ⟨⟨"TX1"⟩, "OK"⟩, okResponse "<html>", rfl, rfl, rfl, rfl, rfl, rfl⟩,
   (txid_changes_only_after_status_post demoLib (scripted []) [] exampleChallenge
      ⟨"Duo Push", "iPhone", "0"⟩ [] [] [] []).2.2.2
      (by
        rintro ⟨txid, promptResp, w, statusResp, hp, _⟩
        cases hp)⟩

/-! ## C9: `WaitForCompletion` on an empty `txid` -/

/-- C9 fails as stated: on a Challenge with an empty `txid`, when the poll is
answered `WAITING`, `WaitForCompletion` returns the ChallengeResponse and no error. -/
theorem WaitForCompletion_empty_txid_counterexample :
    exampleChallenge.txid = [] ∧
    WaitForCompletion demoLib (scripted [.ok (okResponse "OK|WAITING|")]) []
        exampleChallenge =
      ((none, some ⟨[], "WAITING", [], [], [], []⟩, none), exampleChallenge,
       [statusRequest "api.duosecurity.com" "SID1" []]) := by
  decide

/-- When `WaitForCompletion` returns no error. -/
theorem WaitForCompletion_no_error_iff (lib : Lib) (t : Transport) (log : List Request)
    (c : Challenge) :
    (WaitForCompletion lib t log c).1.2.2 = none ↔ RepliesDelivered lib t log c := by
  unfold RepliesDelivered
  cases hp : t log (statusRequest c.host (c.hiddenInputs.Get "sid") c.txid) with
  | error e =>
    rw [WaitForCompletion_poll_failed lib t log c e hp]
    constructor
    · intro h; cases h
    · rintro ⟨_, _, h, _⟩; cases h
  | ok completionResp =>
    rw [WaitForCompletion_poll_answered lib t log c completionResp hp]
    cases hw : lib.decodeChallenge completionResp.Body with
    | error e =>
      constructor
      · intro h; cases h
      · rintro ⟨r, w, h1, h2, _⟩
        cases h1
        rw [hw] at h2
        cases h2
    | ok w =>
      simp only []
      cases hcl : completionResp.Body.closeErr with
      | some e =>
        constructor
        · intro h; cases h
        · rintro ⟨r, w1, h1, _, h3, _⟩
          cases h1
          rw [hcl] at h3
          cases h3
      | none =>
        simp only []
        by_cases hs : w.Response.Result = ("SUCCESS" : Str)
        · simp only [hs, if_true]
          cases hf : t (log ++ [statusRequest c.host (c.hiddenInputs.Get "sid") c.txid])
              (finalRequest c.host (c.hiddenInputs.Get "sid") w.Response.ResultURL) with
          | error e =>
            constructor
            · intro h; cases h
            · rintro ⟨r, w1, h1, h2, _, h4⟩
              cases h1
              rw [hw] at h2
              cases h2
              rcases h4 with h4 | ⟨fr, w2, h5, _⟩
              · exact absurd hs h4
              · rw [hf] at h5
                cases h5
          | ok finalResp =>
            simp only []
            cases hdf : lib.decodeFinal finalResp.Body with
            | error e =>
              constructor
              · intro h; cases h
              · rintro ⟨r, w1, h1, h2, _, h4⟩
                cases h1
                rw [hw] at h2
                cases h2
                rcases h4 with h4 | ⟨fr, w2, h5, h6, _⟩
                · exact absurd hs h4
                · rw [hf] at h5
                  cases h5
                  rw [hdf] at h6
                  cases h6
            | ok w2 =>
              simp only []
              cases hcf : finalResp.Body.closeErr with
              | some e =>
                constructor
                · intro h; cases h
                · rintro ⟨r, w1, h1, h2, _, h4⟩
                  cases h1
                  rw [hw] at h2
                  cases h2
                  rcases h4 with h4 | ⟨fr, w3, h5, _, h7⟩
                  · exact absurd hs h4
                  · rw [hf] at h5
                    cases h5
                    rw [hcf] at h7
                    cases h7
              | none =>
                constructor
                · intro _
                  exact ⟨completionResp, w, rfl, hw, hcl, Or.inr ⟨finalResp, w2, hf, hdf, hcf⟩⟩
                · intro _; rfl
        · simp only [hs, if_false]
          constructor
          · intro _
            exact ⟨completionResp, w, rfl, hw, hcl, Or.inl hs⟩
          · intro _; trivial

/-- The first request of `WaitForCompletion` is the status POST with the `txid` of the
Challenge, whatever that is. -/
theorem WaitForCompletion_first_request (lib : Lib) (t : Transport) (log : List Request)
    (c : Challenge) :
    ∃ more, (WaitForCompletion lib t log c).2.2 =
      log ++ statusRequest c.host (c.hiddenInputs.Get "sid") c.txid :: more := by
  cases hp : t log (statusRequest c.host (c.hiddenInputs.Get "sid") c.txid) with
  | error e =>
    rw [WaitForCompletion_poll_failed lib t log c e hp]
    exact ⟨[], rfl⟩
  | ok completionResp =>
    rw [WaitForCompletion_poll_answered lib t log c completionResp hp]
    cases lib.decodeChallenge completionResp.Body with
    | error e => exact ⟨[], rfl⟩
    | ok w =>
      simp only []
      cases completionResp.Body.closeErr with
      | some e => exact ⟨[], rfl⟩
      | none =>
        simp only []
        split
        · exact ⟨[finalRequest c.host (c.hiddenInputs.Get "sid") w.Response.ResultURL], rfl⟩
        · exact ⟨[], rfl⟩

/-- C9 as amended: `WaitForCompletion` does not look at `txid` before polling.  On a
Challenge with an empty `txid` it issues the status POST with an empty `txid` value,
and it returns no error exactly when every reply it reads is delivered and decodes;
in particular a delivered poll with a Result other than `SUCCESS` yields the
ChallengeResponse and no error. -/
theorem WaitForCompletion_no_txid_guard (lib : Lib) (t : Transport) (log : List Request)
    (c : Challenge) (h : c.txid = []) :
    (∃ more, (WaitForCompletion lib t log c).2.2 =
      log ++ statusRequest c.host (c.hiddenInputs.Get "sid") [] :: more) ∧
    ((WaitForCompletion lib t log c).1.2.2 = none ↔ RepliesDelivered lib t log c) ∧
    (∀ completionResp w,
      t log (statusRequest c.host (c.hiddenInputs.Get "sid") []) = .ok completionResp →
      lib.decodeChallenge completionResp.Body = .ok w →
      completionResp.Body.closeErr = none →
      w.Response.Result ≠ ("SUCCESS" : Str) →
      (WaitForCompletion lib t log c).1 = (none, some w.Response, none)) := by
  refine ⟨?_, WaitForCompletion_no_error_iff lib t log c, ?_⟩
  · have := WaitForCompletion_first_request lib t log c
    rw [h] at this
    exact this
  · intro completionResp w hp hw hcl hs
    rw [← h] at hp
    rw [WaitForCompletion_poll_answered lib t log c completionResp hp]
    simp only [hw, hcl, hs, if_false]

/-- C9 as amended, on the example Challenge before any `StartMethod`: the poll is
answered `WAITING` and comes back without an error. -/
theorem WaitForCompletion_no_txid_guard_witness :
    (WaitForCompletion demoLib (scripted [.ok (okResponse "OK|WAITING|")]) []
        exampleChallenge).1 = (none, some ⟨[], "WAITING", [], [], [], []⟩, none) :=
  (WaitForCompletion_no_txid_guard demoLib (scripted [.ok (okResponse "OK|WAITING|")]) []
    exampleChallenge rfl).2.2 (okResponse "OK|WAITING|")
    ⟨⟨[], "WAITING", [], [], [], []⟩, "OK"⟩ rfl rfl rfl (by decide)

/-! ## C1: the Method list -/

theorem MapGet_MapSet {β : Type} (m : List (Str × β)) (k key : Str) (v zero : β) :
    MapGet (MapSet m k v) key zero = if k = key then v else MapGet m key zero := by
  induction m with
  | nil =>
    unfold MapSet MapGet
    by_cases h : k = key <;> simp [h, MapGet]
  | cons kv rest ih =>
    obtain ⟨k1, w⟩ := kv
    unfold MapSet
    by_cases h1 : k1 = k
    · subst h1
      simp only [if_true]
      by_cases h : k1 = key <;> simp [h, MapGet]
    · simp only [h1, if_false]
      by_cases h2 : k1 = key
      · have h3 : ¬ k = key := fun e => h1 (h2.trans e.symm)
        simp [MapGet, h2, h3]
      · simp only [MapGet, h2, if_false]
        exact ih

/-- The inner loop appends the factors of the inputs to the entry of the device. -/
theorem factorLoop_get (lib : Lib) (deviceIndex key : Str) (inputs : List (List Str))
    (m : List (Str × List Str)) :
    MapGet (factorLoop lib deviceIndex inputs m) key [] =
      if deviceIndex = key then
        MapGet m key [] ++
          (inputs.filter (fun i => i.getD 1 [] = ("factor" : Str))).map
            fun i => lib.UnescapeString (i.getD 2 [])
      else MapGet m key [] := by
  induction inputs generalizing m with
  | nil =>
    unfold factorLoop
    by_cases h : deviceIndex = key <;> simp [h]
  | cons g rest ih =>
    unfold factorLoop
    by_cases hf : g.getD 1 [] = ("factor" : Str)
    · simp only [hf, if_true]
      rw [ih, MapGet_MapSet]
      by_cases h : deviceIndex = key
      · subst h
        simp only [if_true, List.filter_cons, hf, decide_True, List.map_cons,
          List.append_assoc, List.singleton_append]
      · simp only [h, if_false]
    · simp only [hf, if_false]
      rw [ih]
      by_cases h : deviceIndex = key
      · simp only [h, if_true, List.filter_cons, hf, decide_False, Bool.false_eq_true,
          if_false]
      · simp only [h, if_false]

/-- After the loop over the fieldsets the entry of an index holds the factors of the
last fieldset with that index, or what it held before when there is none. -/
theorem fieldsetLoop_get (lib : Lib) (key : Str) (fieldsets : List (List Str))
    (m : List (Str × List Str)) :
    MapGet (fieldsetLoop lib fieldsets m) key [] =
      match (fieldsets.filter (fun g => g.getD 1 [] = key)).getLast? with
      | none => MapGet m key []
      | some g => factorsOf lib (g.getD 2 []) := by
  induction fieldsets generalizing m with
  | nil => rfl
  | cons g rest ih =>
    unfold fieldsetLoop
    simp only []
    rw [ih, factorLoop_get, MapGet_MapSet]
    by_cases h : g.getD 1 [] = key
    · simp only [h, if_true, List.filter_cons, decide_True, List.getLast?_cons]
      cases (rest.filter (fun g => g.getD 1 [] = key)).getLast? with
      | none => simp [factorsOf]
      | some g1 => simp
    · simp only [h, if_false, List.filter_cons, decide_False]
      simp

theorem methodLoop_eq (device : Device) (ms : List Str) (methods : List Method) :
    methodLoop device ms methods =
      methods ++ ms.map fun m => ⟨m, device.FriendlyName, device.Index⟩ := by
  induction ms generalizing methods with
  | nil => simp [methodLoop]
  | cons m rest ih =>
    unfold methodLoop
    rw [ih]
    simp

theorem methodsLoop_eq (msfd : List (Str × List Str)) (devices : List Device)
    (methods : List Method) :
    methodsLoop msfd devices methods =
      methods ++ devices.flatMap fun d =>
        (MapGet msfd d.Index []).map fun m => ⟨m, d.FriendlyName, d.Index⟩ := by
  induction devices generalizing methods with
  | nil => simp [methodsLoop]
  | cons d rest ih =>
    unfold methodsLoop
    rw [ih, methodLoop_eq]
    simp

/-- The Method list of `parseChallenge` is the one built from the pattern matches. -/
theorem parseChallenge_methods (lib : Lib) (host body : Str) :
    (parseChallenge lib host body).Methods =
      patternMethods lib body (parseChallenge lib host body).Devices := by
  unfold parseChallenge patternMethods patternFactors
  simp only []
  split
  · rw [methodsLoop_eq]
    simp only [List.nil_append]
    congr 1
    funext d
    rw [fieldsetLoop_get]
    cases ((FindAllStringSubmatch fieldsetRegex body).filter
      (fun g => g.getD 1 [] = d.Index)).getLast? <;> rfl
  · rename_i h
    have : deviceLoop (lib.tokenize body) false [] [] = [] := by
      cases hd : deviceLoop (lib.tokenize body) false [] [] with
      | nil => rfl
      | cons a l => rw [hd] at h; simp at h
    rw [this]
    rfl

/-! ## The device loop on a well-formed select -/

theorem deviceLoop_before (pre rest : List Token) (devices : List Device)
    (h : ∀ z ∈ pre, z.beforeSelect = true) :
    deviceLoop (pre ++ rest) false [] devices = deviceLoop rest false [] devices := by
  induction pre with
  | nil => rfl
  | cons z pre ih =>
    have hz := h z (List.mem_cons_self _ _)
    have ih1 := ih (fun y hy => h y (List.mem_cons_of_mem _ hy))
    simp only [Token.beforeSelect, Bool.and_eq_true, bne_iff_ne, ne_eq, Bool.not_eq_true',
      Bool.and_eq_false_imp, decide_eq_true_eq, decide_eq_false_iff_not] at hz
    obtain ⟨hz1, hz2⟩ := hz
    show deviceLoop (z :: (pre ++ rest)) false [] devices = _
    rw [deviceLoop]
    cases htt : z.tt with
    | ErrorToken => exact absurd htt hz1
    | StartTagToken =>
      have : ¬ (z.tagName = ("select" : Str) ∧
          MapGet (parseAttrs z.attrs) "name" [] = ("device" : Str)) :=
        fun hh => hz2 ⟨htt, hh.1⟩ hh.2
      simp only [this, if_false, Bool.false_eq_true, false_and]
      exact ih1
    | EndTagToken =>
      simp only [Bool.false_eq_true, false_and, if_false]
      exact ih1
    | TextToken =>
      simp only [ne_eq, not_true_eq_false, if_false]
      exact ih1
    | SelfClosingTagToken => exact ih1
    | CommentToken => exact ih1
    | DoctypeToken => exact ih1

theorem deviceLoop_gap (gap rest : List Token) (devices : List Device)
    (h : ∀ z ∈ gap, z.isGap = true) :
    deviceLoop (gap ++ rest) true [] devices = deviceLoop rest true [] devices := by
  induction gap with
  | nil => rfl
  | cons z gap ih =>
    have hz := h z (List.mem_cons_self _ _)
    have ih1 := ih (fun y hy => h y (List.mem_cons_of_mem _ hy))
    simp only [Token.isGap, Bool.or_eq_true, decide_eq_true_eq] at hz
    show deviceLoop (z :: (gap ++ rest)) true [] devices = _
    rw [deviceLoop]
    rcases hz with htt | htt
    · simp only [htt, ne_eq, not_true_eq_false, if_false]
      exact ih1
    · simp only [htt]
      exact ih1

theorem deviceLoop_option (attrs : List (Str × Str)) (label : Str) (rest : List Token)
    (devices : List Device) (h : MapGet (parseAttrs attrs) "value" [] ≠ []) :
    deviceLoop (optionTokens attrs label ++ rest) true [] devices =
      deviceLoop rest true []
        (devices ++ [⟨MapGet (parseAttrs attrs) "value" [], label⟩]) := by
  have e1 : ¬ (("option" : String).toList = ("select" : String).toList) := by decide
  show deviceLoop (_ :: _ :: _ :: rest) true [] devices = _
  rw [deviceLoop]
  simp only [e1, false_and, if_false, true_and, if_true]
  rw [deviceLoop]
  simp only [ne_eq, h, not_false_eq_true, if_true]
  rw [deviceLoop]
  simp only [e1, and_false, if_false]

theorem deviceLoop_options (opts : List OptionEntry) (rest : List Token)
    (devices : List Device)
    (hv : ∀ o ∈ opts, MapGet (parseAttrs o.attrs) "value" [] ≠ [])
    (hg : ∀ o ∈ opts, ∀ z ∈ o.gap, z.isGap = true) :
    deviceLoop (opts.flatMap (fun o => optionTokens o.attrs o.label ++ o.gap) ++ rest)
        true [] devices =
      deviceLoop rest true []
        (devices ++ opts.map fun o => ⟨MapGet (parseAttrs o.attrs) "value" [], o.label⟩) := by
  induction opts generalizing devices with
  | nil => simp
  | cons o opts ih =>
    have ih1 := ih (devices ++ [⟨MapGet (parseAttrs o.attrs) "value" [], o.label⟩])
      (fun y hy => hv y (List.mem_cons_of_mem _ hy))
      (fun y hy => hg y (List.mem_cons_of_mem _ hy))
    simp only [List.flatMap_cons, List.append_assoc, List.map_cons]
    rw [deviceLoop_option _ _ _ _ (hv o (List.mem_cons_self _ _)),
      deviceLoop_gap _ _ _ (hg o (List.mem_cons_self _ _)), ih1]
    simp only [List.append_assoc, List.singleton_append]

/-- On a page whose device select is well formed, the device loop yields the options
in document order: one Device per option, with the `value` attribute as index and the
text as label. -/
theorem deviceLoop_select (pre post lead : List Token) (attrs : List (Str × Str))
    (opts : List OptionEntry)
    (hpre : ∀ z ∈ pre, z.beforeSelect = true)
    (hsel : MapGet (parseAttrs attrs) "name" [] = ("device" : Str))
    (hlead : ∀ z ∈ lead, z.isGap = true)
    (hv : ∀ o ∈ opts, MapGet (parseAttrs o.attrs) "value" [] ≠ [])
    (hg : ∀ o ∈ opts, ∀ z ∈ o.gap, z.isGap = true) :
    deviceLoop (pre ++ selectTokens attrs lead opts ++ post) false [] [] =
      opts.map fun o => ⟨MapGet (parseAttrs o.attrs) "value" [], o.label⟩ := by
  have e : selectTokens attrs lead opts ++ post =
      ⟨.StartTagToken, "select", attrs, []⟩ ::
        (lead ++ (opts.flatMap (fun o => optionTokens o.attrs o.label ++ o.gap) ++
          (⟨.EndTagToken, "select", [], []⟩ :: post))) := by
    simp only [selectTokens, List.cons_append, List.append_assoc, List.singleton_append,
      List.nil_append]
  rw [List.append_assoc, deviceLoop_before _ _ _ hpre, e, deviceLoop]
  simp only [hsel, and_self, if_true]
  rw [deviceLoop_gap _ _ _ hlead, deviceLoop_options _ _ _ hv hg, deviceLoop]
  simp only [and_self, if_true, List.nil_append]

/-- When the negotiation request is answered and the page is read and closed without
error, `BeginChallenge` returns the Challenge parsed from the page. -/
theorem BeginChallenge_page (lib : Lib) (t : Transport) (log : List Request)
    (parent host sig postAction : Str) (req : Request) (resp : Response)
    (hlog : (BeginChallenge lib t log parent host sig postAction).2 = log ++ [req])
    (ht : t log req = .ok resp)
    (hr : resp.Body.readErr = none) (hc : resp.Body.closeErr = none) :
    (BeginChallenge lib t log parent host sig postAction).1 =
      .returned (some (parseChallenge lib host resp.Body.data), none) := by
  have hne : log ≠ log ++ [req] := by
    intro h
    have := congrArg List.length h
    simp at this
  cases hu : lib.urlParse parent with
  | error e =>
    have : (BeginChallenge lib t log parent host sig postAction).2 = log := by
      unfold BeginChallenge
      simp only [Split_head, hu]
    rw [this] at hlog
    exact absurd hlog hne
  | ok u =>
    cases hn : lib.newRequestErr ("https://" ++ host ++ "/frame/web/v1/auth" ++ "?" ++
        lib.Encode [("tx", [sig.takeWhile (fun c => c != ':')]), ("parent", [parent]),
          ("v", ["2.6"])]) with
    | some e =>
      have : (BeginChallenge lib t log parent host sig postAction).2 = log := by
        unfold BeginChallenge
        simp only [Split_head, hu, hn]
      rw [this] at hlog
      exact absurd hlog hne
    | none =>
      rw [BeginChallenge_log lib t log parent host sig postAction u hu hn] at hlog
      have hreq := List.append_cancel_left hlog
      simp only [List.cons.injEq, and_true] at hreq
      rw [← hreq] at ht
      unfold BeginChallenge
      simp only [Split_head, hu, hn, PostForm]
      rw [authForm_eq]
      simp only [ht, ReadAll, hr, hc]

/-! ## Lemmas on the matcher -/

theorem dropLit_append (l s : Str) : dropLit l (l ++ s) = some s := by
  induction l with
  | nil => cases s <;> rfl
  | cons a l ih => simp [dropLit, ih]

theorem dropLit_some (l s r : Str) (h : dropLit l s = some r) : s = l ++ r := by
  induction l generalizing s with
  | nil =>
    cases s <;> simp [dropLit] at h <;> simp [h]
  | cons a l ih =>
    cases s with
    | nil => simp [dropLit] at h
    | cons c s =>
      simp only [dropLit] at h
      by_cases hc : a = c
      · simp only [hc, if_true] at h
        rw [hc, ih s h]
        rfl
      · simp only [hc, if_false] at h
        cases h

theorem dropLit_head_ne (a c : Char) (l s : Str) (h : a ≠ c) :
    dropLit (a :: l) (c :: s) = none := by
  simp [dropLit, h]

theorem lineQuotes_append (l r : Str) (h : '\n' ∉ l) :
    lineQuotes (l ++ r) = l.count '"' + lineQuotes r := by
  induction l with
  | nil => simp
  | cons c l ih =>
    have hc : c ≠ '\n' := fun e => h (by simp [e])
    have hl : '\n' ∉ l := fun e => h (by simp [e])
    rw [List.cons_append, lineQuotes, if_neg hc, ih hl, List.count_cons]
    by_cases hq : c = '"'
    · simp only [hq, if_true, beq_self_eq_true]; omega
    · have hb : (c == '"') = false := by simp [hq]
      simp only [hq, if_false, hb, Bool.false_eq_true]; omega

theorem starGreedy_some {α : Type} (cls : Char → Bool) (k : Str → Option α) (s cap : Str)
    (r : α) (h : starGreedy cls k s = some (cap, r)) :
    ∃ rest, s = cap ++ rest ∧ (∀ c ∈ cap, cls c = true) ∧ k rest = some r := by
  induction s generalizing cap with
  | nil =>
    simp only [starGreedy, Option.map_eq_some'] at h
    obtain ⟨a, ha, he⟩ := h
    simp only [Prod.mk.injEq] at he
    exact ⟨[], by simp [← he.1], by simp [← he.1], by rw [ha, he.2]⟩
  | cons c cs ih =>
    simp only [starGreedy] at h
    by_cases hc : cls c = true
    · simp only [hc, if_true] at h
      cases hin : starGreedy cls k cs with
      | some x =>
        obtain ⟨cap1, r1⟩ := x
        rw [hin] at h
        simp only [Option.some.injEq, Prod.mk.injEq] at h
        obtain ⟨rest, h1, h2, h3⟩ := ih cap1 (h.2 ▸ hin)
        refine ⟨rest, ?_, ?_, h3⟩
        · rw [← h.1, h1]; rfl
        · rw [← h.1]
          intro x hx
          rcases List.mem_cons.1 hx with e | e
          · rw [e]; exact hc
          · exact h2 x e
      | none =>
        rw [hin] at h
        simp only [Option.map_eq_some'] at h
        obtain ⟨a, ha, he⟩ := h
        simp only [Prod.mk.injEq] at he
        exact ⟨c :: cs, by simp [← he.1], by simp [← he.1], by rw [ha, he.2]⟩
    · simp only [hc, if_false, Bool.false_eq_true, Option.map_eq_some'] at h
      obtain ⟨a, ha, he⟩ := h
      simp only [Prod.mk.injEq] at he
      exact ⟨c :: cs, by simp [← he.1], by simp [← he.1], by rw [ha, he.2]⟩

theorem starGreedy_stop {α : Type} (cls : Char → Bool) (k : Str → Option α) (rest : Str)
    (h : ∀ p rest1, p ≠ [] → (∀ c ∈ p, cls c = true) → p ++ rest1 = rest → k rest1 = none) :
    starGreedy cls k rest = (k rest).map fun r => ([], r) := by
  induction rest with
  | nil => rfl
  | cons c cs ih =>
    simp only [starGreedy]
    by_cases hc : cls c = true
    · simp only [hc, if_true]
      have hin : starGreedy cls k cs = none := by
        rw [ih]
        · rw [h [c] cs (by simp) (by simpa using hc) rfl]
          rfl
        · intro p rest1 hp hcls he
          apply h (c :: p) rest1 (by simp)
          · intro x hx
            rcases List.mem_cons.1 hx with e | e
            · rw [e]; exact hc
            · exact hcls x e
          · rw [← he]; rfl
      rw [hin]
    · simp only [hc, if_false, Bool.false_eq_true]

/-- The greedy star takes the longest run after which the rest of the pattern
matches. -/
theorem starGreedy_longest {α : Type} (cls : Char → Bool) (k : Str → Option α)
    (cap rest : Str) (r : α)
    (hcap : ∀ c ∈ cap, cls c = true) (hk : k rest = some r)
    (h : ∀ p rest1, p ≠ [] → (∀ c ∈ p, cls c = true) → p ++ rest1 = rest → k rest1 = none) :
    starGreedy cls k (cap ++ rest) = some (cap, r) := by
  induction cap with
  | nil =>
    rw [List.nil_append, starGreedy_stop cls k rest h, hk]
    rfl
  | cons c cap ih =>
    have hc : cls c = true := hcap c (List.mem_cons_self _ _)
    have ih1 := ih (fun x hx => hcap x (List.mem_cons_of_mem _ hx))
    rw [List.cons_append]
    simp only [starGreedy, hc, if_true, ih1]

/-- The lazy star takes the shortest run after which the rest of the pattern
matches. -/
theorem starLazy_shortest {α : Type} (cls : Char → Bool) (k : Str → Option α)
    (cap rest : Str) (r : α)
    (hcap : ∀ c ∈ cap, cls c = true) (hk : k rest = some r)
    (h : ∀ p q, cap = p ++ q → q ≠ [] → k (q ++ rest) = none) :
    starLazy cls k (cap ++ rest) = some (cap, r) := by
  induction cap with
  | nil =>
    rw [List.nil_append]
    cases rest with
    | nil => simp [starLazy, hk]
    | cons c cs => simp [starLazy, hk]
  | cons c cap ih =>
    have hc : cls c = true := hcap c (List.mem_cons_self _ _)
    have hn : k (c :: (cap ++ rest)) = none := h [] (c :: cap) rfl (by simp)
    have ih1 := ih (fun x hx => hcap x (List.mem_cons_of_mem _ hx))
      (fun p q e hq => h (c :: p) q (by rw [e]; rfl) hq)
    rw [List.cons_append]
    simp only [starLazy, hn, hc, if_true, ih1]

theorem append_eq_line_split (p rest1 Q tail : Str) (hp : '\n' ∉ p)
    (h : p ++ rest1 = Q ++ '\n' :: tail) :
    ∃ q, Q = p ++ q ∧ rest1 = q ++ '\n' :: tail := by
  induction p generalizing Q with
  | nil => exact ⟨Q, rfl, by simpa using h⟩
  | cons c p ih =>
    have hc : c ≠ '\n' := fun e => hp (by simp [e])
    have hp1 : '\n' ∉ p := fun e => hp (by simp [e])
    cases Q with
    | nil =>
      simp only [List.cons_append, List.nil_append, List.cons.injEq] at h
      exact absurd h.1 hc
    | cons d Q =>
      simp only [List.cons_append, List.cons.injEq] at h
      obtain ⟨q, h1, h2⟩ := ih Q hp1 h.2
      exact ⟨q, by rw [h.1, h1]; rfl, h2⟩

theorem not_newline_of_dot (p : Str) (h : ∀ c ∈ p, dot c = true) : '\n' ∉ p := by
  intro hm
  have := h '\n' hm
  simp [dot] at this

/-- After a quoted literal that closes a greedy group, no longer run on the same line
lets the rest of the pattern match, when that rest needs as many quotes on its line
as the literal and what follows it on the line have. -/
theorem longer_run_fails {α : Type} (k : Str → Option α) (Q tail : Str)
    (hQ : '\n' ∉ Q) (hhead : Q.head? = some '"')
    (hk : ∀ s r, k s = some r → Q.count '"' ≤ lineQuotes s) :
    ∀ p rest1, p ≠ [] → (∀ c ∈ p, dot c = true) → p ++ rest1 = Q ++ '\n' :: tail →
      k rest1 = none := by
  intro p rest1 hp hdot he
  obtain ⟨q, h1, h2⟩ := append_eq_line_split p rest1 Q tail (not_newline_of_dot p hdot) he
  cases hk1 : k rest1 with
  | none => rfl
  | some r =>
    exfalso
    have h3 := hk rest1 r hk1
    have hq : '\n' ∉ q := fun e => hQ (by rw [h1]; simp [e])
    rw [h2, lineQuotes_append q _ hq] at h3
    have h4 : lineQuotes ('\n' :: tail) = 0 := by simp [lineQuotes]
    rw [h4, h1, List.count_append] at h3
    cases p with
    | nil => exact hp rfl
    | cons c p =>
      rw [h1] at hhead
      simp only [List.cons_append, List.head?_cons, Option.some.injEq] at hhead
      rw [hhead, List.count_cons_self] at h3
      omega

theorem findAllAux_skip (re : Regex) (a s : Str) :
    findAllAux re (a ++ s) a.length = findAllAux re s 0 := by
  induction a with
  | nil => rfl
  | cons c a ih =>
    rw [List.cons_append, List.length_cons, findAllAux]
    exact ih

theorem findAllAux_match (re : Regex) (m rest : Str) (caps : List Str) (hm : m ≠ [])
    (h : matchHere re (m ++ rest) = some (caps, rest)) :
    findAllAux re (m ++ rest) 0 = (m :: caps) :: findAllAux re rest 0 := by
  cases m with
  | nil => exact absurd rfl hm
  | cons c m =>
    rw [List.cons_append] at h ⊢
    rw [findAllAux]
    simp only [h]
    have hn : (c :: (m ++ rest)).length - rest.length = m.length + 1 := by
      simp only [List.length_cons, List.length_append]
      omega
    rw [hn]
    simp only [List.take_succ_cons, List.take_left', Nat.add_sub_cancel, findAllAux_skip]

theorem findAllAux_no_match (re : Regex) (pre s : Str)
    (h : ∀ a b, pre = a ++ b → b ≠ [] → matchHere re (b ++ s) = none) :
    findAllAux re (pre ++ s) 0 = findAllAux re s 0 := by
  induction pre with
  | nil => rfl
  | cons c pre ih =>
    have h1 : matchHere re (c :: (pre ++ s)) = none := h [] (c :: pre) rfl (by simp)
    rw [List.cons_append, findAllAux]
    simp only [h1]
    exact ih (fun a b e hb => h (c :: a) b (by rw [e]; rfl) hb)

/-! ## The input pattern on a rendered input -/

theorem plain_no_newline (v : Str) (h : ∀ c ∈ v, plainChar c = true) : '\n' ∉ v := by
  intro hm
  have := h '\n' hm
  simp [plainChar] at this

theorem plain_no_quote (v : Str) (h : ∀ c ∈ v, plainChar c = true) : '"' ∉ v := by
  intro hm
  have := h '"' hm
  simp [plainChar] at this

theorem plain_no_lt (v : Str) (h : ∀ c ∈ v, plainChar c = true) : '<' ∉ v := by
  intro hm
  have := h '<' hm
  simp [plainChar] at this

theorem dot_of_no_newline (v : Str) (h : '\n' ∉ v) : ∀ c ∈ v, dot c = true := by
  intro c hc
  simp only [dot, bne_iff_ne, ne_eq]
  intro e
  exact h (e ▸ hc)

theorem matchHere_lit_quotes (l s : Str) (r : List Str × Str) (hl : '\n' ∉ l)
    (h : matchHere [.lit l] s = some r) : l.count '"' ≤ lineQuotes s := by
  simp only [matchHere] at h
  cases hd : dropLit l s with
  | none => rw [hd] at h; cases h
  | some s1 =>
    rw [dropLit_some l s s1 hd, lineQuotes_append l s1 hl]
    omega

theorem matchHere_lit_append (l r : Str) :
    matchHere [.lit l] (l ++ r) = some ([], r) := by
  simp only [matchHere, dropLit_append]

/-- The tail of the input pattern, from the quote that closes the name, needs three
quotes on its line. -/
theorem inputTail_quotes (s : Str) (r : List Str × Str)
    (h : matchHere [.lit "\" value=\"".toList, .capGreedy dot, .lit "\">".toList] s = some r) :
    3 ≤ lineQuotes s := by
  simp only [matchHere] at h
  cases hd : dropLit "\" value=\"".toList s with
  | none => rw [hd] at h; cases h
  | some s1 =>
    rw [hd] at h
    simp only [Option.map_eq_some'] at h
    obtain ⟨⟨cap, r1⟩, hg, _⟩ := h
    obtain ⟨rest, h1, h2, h3⟩ := starGreedy_some dot _ s1 cap r1 hg
    have h4 := matchHere_lit_quotes "\">".toList rest r1 (by decide)
      (by simpa only [matchHere] using h3)
    rw [dropLit_some _ s s1 hd, h1, lineQuotes_append _ _ (by decide),
      lineQuotes_append cap rest (not_newline_of_dot cap h2)]
    have e1 : ("\" value=\"".toList).count '"' = 2 := by decide
    have e2 : ("\">".toList).count '"' = 1 := by decide
    omega

/-- The input pattern on a rendered input that ends its line: the groups are the name
and the value, and the match ends at the end of the line. -/
theorem matchHere_input (i : HiddenInput) (tail : Str)
    (hn : '\n' ∉ i.name) (hv : ∀ c ∈ i.value, plainChar c = true) :
    matchHere inputRegex (renderInput i ++ '\n' :: tail) =
      some ([i.name, i.value], '\n' :: tail) := by
  have hvn := plain_no_newline i.value hv
  have hvq := plain_no_quote i.value hv
  have e : renderInput i ++ '\n' :: tail =
      "<input type=\"hidden\" name=\"".toList ++ (i.name ++
        ("\" value=\"".toList ++ (i.value ++ ("\">".toList ++ '\n' :: tail)))) := by
    simp only [renderInput, List.append_assoc]
  have inner : starGreedy dot (matchHere [.lit "\">".toList])
      (i.value ++ ("\">".toList ++ '\n' :: tail)) = some (i.value, ([], '\n' :: tail)) :=
    starGreedy_longest dot _ i.value _ _ (dot_of_no_newline _ hvn)
      (matchHere_lit_append _ _)
      (longer_run_fails _ "\">".toList tail (by decide) rfl
        (fun s r h => matchHere_lit_quotes _ s r (by decide) h))
  have hk : matchHere [.lit "\" value=\"".toList, .capGreedy dot, .lit "\">".toList]
      ("\" value=\"".toList ++ (i.value ++ ("\">".toList ++ '\n' :: tail))) =
        some ([i.value], '\n' :: tail) := by
    simp only [matchHere, dropLit_append]
    have := inner
    simp only [matchHere] at this
    rw [this]
    rfl
  have hQ : "\" value=\"".toList ++ (i.value ++ ("\">".toList ++ '\n' :: tail)) =
      ("\" value=\"".toList ++ i.value ++ "\">".toList) ++ '\n' :: tail := by
    simp only [List.append_assoc]
  have hcount : ("\" value=\"".toList ++ i.value ++ "\">".toList).count '"' = 3 := by
    rw [List.count_append, List.count_append, List.count_eq_zero.2 hvq]
    decide
  have outer : starGreedy dot
      (matchHere [.lit "\" value=\"".toList, .capGreedy dot, .lit "\">".toList])
      (i.name ++ ("\" value=\"".toList ++ (i.value ++ ("\">".toList ++ '\n' :: tail)))) =
        some (i.name, ([i.value], '\n' :: tail)) := by
    apply starGreedy_longest dot _ i.name _ _ (dot_of_no_newline _ hn) hk
    rw [hQ]
    apply longer_run_fails _ _ tail
    · intro hm
      simp only [List.mem_append] at hm
      rcases hm with (hm | hm) | hm
      · revert hm; decide
      · exact hvn hm
      · revert hm; decide
    · rfl
    · intro s r h
      rw [hcount]
      exact inputTail_quotes s r h
  rw [e]
  unfold inputRegex
  rw [matchHere]
  simp only [dropLit_append]
  rw [matchHere, outer]
  rfl

theorem renderInputs_cons (i : HiddenInput) (is : List HiddenInput) :
    renderInputs (i :: is) = renderInput i ++ '\n' :: renderInputs is := by
  simp only [renderInputs, List.flatMap_cons, List.append_assoc]
  rfl

theorem renderInput_ne_nil (i : HiddenInput) : renderInput i ≠ [] := by
  simp [renderInput]

theorem matchHere_input_newline (s : Str) : matchHere inputRegex ('\n' :: s) = none := by
  unfold inputRegex
  rw [matchHere]
  have : dropLit "<input type=\"hidden\" name=\"".toList ('\n' :: s) = none :=
    dropLit_head_ne '<' '\n' _ s (by decide)
  rw [this]

/-- The input pattern finds the rendered inputs, one match per input, in order. -/
theorem findAll_inputs (is : List HiddenInput)
    (h : ∀ i ∈ is, '\n' ∉ i.name ∧ ∀ c ∈ i.value, plainChar c = true) :
    findAllAux inputRegex (renderInputs is) 0 =
      is.map fun i => [renderInput i, i.name, i.value] := by
  induction is with
  | nil => rfl
  | cons i is ih =>
    have hi := h i (List.mem_cons_self _ _)
    rw [renderInputs_cons,
      findAllAux_match inputRegex (renderInput i) _ _ (renderInput_ne_nil i)
        (matchHere_input i _ hi.1 hi.2),
      findAllAux]
    simp only [matchHere_input_newline, List.map_cons]
    rw [ih (fun j hj => h j (List.mem_cons_of_mem _ hj))]

/-- The factors of the text of a rendered fieldset are the values of its inputs named
`factor`, unescaped, in order. -/
theorem factorsOf_rendered (lib : Lib) (is : List HiddenInput)
    (h : ∀ i ∈ is, '\n' ∉ i.name ∧ ∀ c ∈ i.value, plainChar c = true) :
    factorsOf lib ('\n' :: renderInputs is) =
      (is.filter fun i => i.name = ("factor" : Str)).map fun i =>
        lib.UnescapeString i.value := by
  unfold factorsOf FindAllStringSubmatch
  rw [findAllAux]
  simp only [matchHere_input_newline]
  rw [findAll_inputs is h, List.filter_map, List.map_map]
  rfl

/-! ## The fieldset pattern on a rendered fieldset -/

theorem ltOk_suffix (p q : Str) (h : ltOk (p ++ q) = true) : ltOk q = true := by
  induction p with
  | nil => exact h
  | cons c p ih =>
    rw [List.cons_append, ltOk, Bool.and_eq_true] at h
    exact ih h.2

theorem ltOk_append_of_no_lt (a b : Str) (h : '<' ∉ a) : ltOk (a ++ b) = ltOk b := by
  induction a with
  | nil => rfl
  | cons c a ih =>
    have hc : c ≠ '<' := fun e => h (by simp [e])
    have ha : '<' ∉ a := fun e => h (by simp [e])
    have hb : (c != '<') = true := by simp [hc]
    rw [List.cons_append, ltOk, hb, Bool.true_or, Bool.true_and, ih ha]

theorem ltOk_renderInputs (is : List HiddenInput)
    (h : ∀ i ∈ is, (∀ c ∈ i.name, plainChar c = true) ∧ ∀ c ∈ i.value, plainChar c = true) :
    ltOk (renderInputs is) = true := by
  induction is with
  | nil => rfl
  | cons i is ih =>
    have hi := h i (List.mem_cons_self _ _)
    have e : renderInput i ++ '\n' :: renderInputs is =
        '<' :: (("input type=\"hidden\" name=\"".toList ++ i.name ++ "\" value=\"".toList ++
          i.value ++ "\">\n".toList) ++ renderInputs is) := by
      simp only [renderInput, List.append_assoc]
      rfl
    rw [renderInputs_cons, e, ltOk]
    have h1 : ((("input type=\"hidden\" name=\"".toList ++ i.name ++ "\" value=\"".toList ++
          i.value ++ "\">\n".toList) ++ renderInputs is).head? == some 'i') = true := by
      simp only [List.append_assoc]
      rfl
    rw [h1, Bool.or_true, Bool.true_and, ltOk_append_of_no_lt]
    · exact ih (fun j hj => h j (List.mem_cons_of_mem _ hj))
    · intro hm
      simp only [List.mem_append] at hm
      rcases hm with (((hm | hm) | hm) | hm) | hm
      · revert hm; decide
      · exact plain_no_lt _ hi.1 hm
      · revert hm; decide
      · exact plain_no_lt _ hi.2 hm
      · revert hm; decide

theorem closing_fails (q rest : Str) (hq : q ≠ []) (h : ltOk q = true) :
    matchHere [.lit "</fieldset>".toList] (q ++ rest) = none := by
  rw [matchHere]
  cases q with
  | nil => exact absurd rfl hq
  | cons c cs =>
    rw [ltOk, Bool.and_eq_true, Bool.or_eq_true] at h
    have : dropLit "</fieldset>".toList (c :: cs ++ rest) = none := by
      by_cases hc : c = '<'
      · rcases h.1 with h1 | h1
        · simp [hc] at h1
        · cases cs with
          | nil => simp at h1
          | cons d cs =>
            simp only [List.head?_cons, beq_iff_eq, Option.some.injEq] at h1
            subst hc
            subst h1
            rfl
      · exact dropLit_head_ne '<' c _ _ (fun e => hc e.symm)
    rw [this]

theorem renderFieldset_append (f : FieldsetBlock) (tail : Str) :
    renderFieldset f ++ tail =
      "<fieldset data-device-index=\"".toList ++ (f.index ++
        ("\" class=\"hidden\">".toList ++ '\n' ::
          (('\n' :: renderInputs f.inputs).tail ++ ("</fieldset>".toList ++ tail)))) := by
  simp only [renderFieldset, List.append_assoc, List.tail_cons]
  rfl

/-- The fieldset pattern on a rendered fieldset: the groups are the index and the
text between the tags, and the match ends with the closing tag. -/
theorem matchHere_fieldset (f : FieldsetBlock) (tail : Str)
    (hidx : '\n' ∉ f.index)
    (h : ∀ i ∈ f.inputs,
      (∀ c ∈ i.name, plainChar c = true) ∧ ∀ c ∈ i.value, plainChar c = true) :
    matchHere fieldsetRegex (renderFieldset f ++ tail) =
      some ([f.index, '\n' :: renderInputs f.inputs], tail) := by
  have hlazy : starLazy anyChar (matchHere [.lit "</fieldset>".toList])
      (('\n' :: renderInputs f.inputs) ++ ("</fieldset>".toList ++ tail)) =
        some ('\n' :: renderInputs f.inputs, ([], tail)) := by
    apply starLazy_shortest anyChar _ _ _ _ (fun _ _ => rfl) (matchHere_lit_append _ _)
    intro p q e hq
    apply closing_fails q _ hq
    apply ltOk_suffix p q
    rw [← e]
    have : ltOk ('\n' :: renderInputs f.inputs) = ltOk (renderInputs f.inputs) :=
      ltOk_append_of_no_lt ['\n'] _ (by decide)
    rw [this]
    exact ltOk_renderInputs f.inputs h
  have hk : matchHere [.lit "\" class=\"hidden\">".toList, .capLazy anyChar,
        .lit "</fieldset>".toList]
      ("\" class=\"hidden\">".toList ++ '\n' ::
        (renderInputs f.inputs ++ ("</fieldset>".toList ++ tail))) =
      some (['\n' :: renderInputs f.inputs], tail) := by
    rw [matchHere]
    simp only [dropLit_append]
    rw [matchHere]
    have := hlazy
    rw [List.cons_append] at this
    rw [this]
    rfl
  have outer : starGreedy dot
      (matchHere [.lit "\" class=\"hidden\">".toList, .capLazy anyChar,
        .lit "</fieldset>".toList])
      (f.index ++ ("\" class=\"hidden\">".toList ++ '\n' ::
        (renderInputs f.inputs ++ ("</fieldset>".toList ++ tail)))) =
      some (f.index, (['\n' :: renderInputs f.inputs], tail)) := by
    apply starGreedy_longest dot _ f.index _ _ (dot_of_no_newline _ hidx) hk
    apply longer_run_fails _ "\" class=\"hidden\">".toList _ (by decide) rfl
    intro s r hs
    rw [matchHere] at hs
    cases hd : dropLit "\" class=\"hidden\">".toList s with
    | none => rw [hd] at hs; cases hs
    | some s1 =>
      rw [dropLit_some _ s s1 hd, lineQuotes_append _ _ (by decide)]
      omega
  rw [renderFieldset_append, List.tail_cons]
  unfold fieldsetRegex
  rw [matchHere]
  simp only [dropLit_append]
  rw [matchHere, outer]
  rfl

/-! ## The fieldset pattern on a page -/

theorem matchHere_fieldset_newline (s : Str) :
    matchHere fieldsetRegex ('\n' :: s) = none := by
  unfold fieldsetRegex
  rw [matchHere]
  have : dropLit "<fieldset data-device-index=\"".toList ('\n' :: s) = none :=
    dropLit_head_ne '<' '\n' _ s (by decide)
  rw [this]

theorem not_occurs (l a b : Str) (h : occursIn l (a ++ b) = false) :
    ¬ l <+: b := by
  intro hp
  unfold occursIn at h
  rw [List.any_eq_false] at h
  exact h b ((List.mem_tails _ _).2 (List.suffix_append a b))
    (List.isPrefixOf_iff_prefix.2 hp)

/-- Where the opening literal does not occur in the text after the fieldsets, the
pattern matches nowhere in it. -/
theorem no_fieldset_after (post : Str)
    (h : occursIn "<fieldset data-device-index=\"".toList post = false) :
    ∀ a b, post = a ++ b → b ≠ [] → matchHere fieldsetRegex (b ++ []) = none := by
  intro a b e _
  unfold fieldsetRegex
  rw [matchHere, List.append_nil]
  cases hd : dropLit "<fieldset data-device-index=\"".toList b with
  | none => rfl
  | some r =>
    exfalso
    rw [e] at h
    exact not_occurs _ a b h ⟨r, (dropLit_some _ b r hd).symm⟩

/-- Where the opening literal does not occur in the text before the fieldsets and
that text is empty or ends a line, the pattern matches nowhere in it. -/
theorem no_fieldset_before (pre s : Str)
    (h : occursIn "<fieldset data-device-index=\"".toList pre = false)
    (hend : pre = [] ∨ ∃ pre1, pre = pre1 ++ ['\n']) :
    ∀ a b, pre = a ++ b → b ≠ [] → matchHere fieldsetRegex (b ++ s) = none := by
  intro a b e hb
  unfold fieldsetRegex
  rw [matchHere]
  cases hd : dropLit "<fieldset data-device-index=\"".toList (b ++ s) with
  | none => rfl
  | some r =>
    exfalso
    rcases hend with h0 | ⟨pre1, h1⟩
    · rw [h0] at e
      have := List.append_eq_nil.1 e.symm
      exact hb this.2
    · have hbl : ∃ b1, b = b1 ++ ['\n'] := by
        rcases List.eq_nil_or_concat b with hnil | ⟨b1, c, hc⟩
        · exact absurd hnil hb
        · refine ⟨b1, ?_⟩
          rw [hc, List.concat_eq_append] at e ⊢
          rw [h1, ← List.append_assoc] at e
          have := List.append_inj_right' e rfl
          simp only [List.cons.injEq, and_true] at this
          rw [← this]
      obtain ⟨b1, hb1⟩ := hbl
      have h2 := dropLit_some _ _ r hd
      rw [hb1, List.append_assoc, List.singleton_append] at h2
      obtain ⟨q, hq, _⟩ := append_eq_line_split _ r b1 s (by decide) h2.symm
      rw [e] at h
      apply not_occurs _ a b h
      rw [hb1, hq]
      exact ⟨q ++ ['\n'], by simp⟩

theorem renderFieldsets_cons (f : FieldsetBlock) (fs : List FieldsetBlock) (post : Str) :
    renderFieldsets (f :: fs) ++ post =
      renderFieldset f ++ '\n' :: (renderFieldsets fs ++ post) := by
  simp only [renderFieldsets, List.flatMap_cons, List.append_assoc]
  rfl

theorem renderFieldset_ne_nil (f : FieldsetBlock) : renderFieldset f ≠ [] := by
  simp [renderFieldset]

/-- The fieldset pattern finds the rendered fieldsets, one match per fieldset, in
order. -/
theorem findAll_fieldsets (pre post : Str) (fs : List FieldsetBlock)
    (hpre : occursIn "<fieldset data-device-index=\"".toList pre = false)
    (hend : pre = [] ∨ ∃ pre1, pre = pre1 ++ ['\n'])
    (hpost : occursIn "<fieldset data-device-index=\"".toList post = false)
    (hfs : ∀ f ∈ fs, '\n' ∉ f.index ∧ ∀ i ∈ f.inputs,
      (∀ c ∈ i.name, plainChar c = true) ∧ ∀ c ∈ i.value, plainChar c = true) :
    FindAllStringSubmatch fieldsetRegex (pre ++ renderFieldsets fs ++ post) =
      fs.map fun f => [renderFieldset f, f.index, '\n' :: renderInputs f.inputs] := by
  unfold FindAllStringSubmatch
  rw [List.append_assoc, findAllAux_no_match _ pre _ (no_fieldset_before pre _ hpre hend)]
  induction fs with
  | nil =>
    have := findAllAux_no_match fieldsetRegex post [] (no_fieldset_after post hpost)
    rw [List.append_nil] at this
    rw [show renderFieldsets [] ++ post = post from rfl, this]
    rfl
  | cons f fs ih =>
    have hf := hfs f (List.mem_cons_self _ _)
    rw [renderFieldsets_cons,
      findAllAux_match fieldsetRegex (renderFieldset f) _ _ (renderFieldset_ne_nil f)
        (matchHere_fieldset f _ hf.1 hf.2),
      findAllAux]
    simp only [matchHere_fieldset_newline, List.map_cons]
    rw [ih (fun g hg => hfs g (List.mem_cons_of_mem _ hg))]

/-- On a page that holds rendered fieldsets, the factor list of an index is the list
of the values, unescaped and in order, of the inputs named `factor` of the fieldset
with that index (the last one, should the index repeat), and empty when there is
none. -/
theorem patternFactors_rendered (lib : Lib) (pre post : Str) (fs : List FieldsetBlock)
    (index : Str)
    (hpre : occursIn "<fieldset data-device-index=\"".toList pre = false)
    (hend : pre = [] ∨ ∃ pre1, pre = pre1 ++ ['\n'])
    (hpost : occursIn "<fieldset data-device-index=\"".toList post = false)
    (hfs : ∀ f ∈ fs, '\n' ∉ f.index ∧ ∀ i ∈ f.inputs,
      (∀ c ∈ i.name, plainChar c = true) ∧ ∀ c ∈ i.value, plainChar c = true) :
    patternFactors lib (pre ++ renderFieldsets fs ++ post) index =
      markupFactors lib fs index := by
  unfold patternFactors markupFactors FieldsetBlock.factors
  rw [findAll_fieldsets pre post fs hpre hend hpost hfs, List.filter_map, List.getLast?_map]
  have hfil : (fs.filter ((fun g : List Str => decide (g.getD 1 [] = index)) ∘
      fun f => [renderFieldset f, f.index, '\n' :: renderInputs f.inputs])) =
        fs.filter fun f => f.index = index := rfl
  rw [hfil]
  cases hl : (fs.filter fun f => f.index = index).getLast? with
  | none => rfl
  | some f =>
    have hmem : f ∈ fs :=
      List.mem_of_mem_filter (List.mem_of_mem_getLast? (by rw [hl]; exact rfl))
    have hf := hfs f hmem
    simp only [Option.map_some', List.getD_cons_succ, List.getD_cons_zero]
    exact factorsOf_rendered lib f.inputs
      (fun i hi => ⟨plain_no_newline _ (hf.2 i hi).1, (hf.2 i hi).2⟩)

/-! ## C1: the Method list of a Challenge -/

/-- C1 fails as stated: on the page of the specification's example with a second
factor input on the same line, the fieldset of device `0` holds the two factor inputs
`Duo Push` and `Phone Call`, but the greedy input pattern matches the two inputs as
one, whose name is not `factor`; the Challenge has the Device `(0, iPhone)` and no
Method, where the claim asks for two. -/
theorem BeginChallenge_methods_inline_counterexample :
    examplePage3 = renderFieldsetInline exampleFieldset3 ++
      "<select name=\"device\"><option value=\"0\">iPhone</option></select>" ∧
    markupFactors demoLib [exampleFieldset3] "0" = ["Duo Push", "Phone Call"] ∧
    (BeginChallenge demoLib (scripted [.ok (okResponse examplePage3)]) []
        "https://idp.mit.edu/idp/Authn" "api.duosecurity.com" "abc:def" "/idp/Authn").1 =
      .returned (some (parseChallenge demoLib "api.duosecurity.com" examplePage3), none) ∧
    (parseChallenge demoLib "api.duosecurity.com" examplePage3).Devices =
      [⟨"0", "iPhone"⟩] ∧
    (parseChallenge demoLib "api.duosecurity.com" examplePage3).Methods = [] ∧
    (parseChallenge demoLib "api.duosecurity.com" examplePage3).Methods ≠
      (parseChallenge demoLib "api.duosecurity.com" examplePage3).Devices.flatMap (fun d =>
        (markupFactors demoLib [exampleFieldset3] d.Index).map fun m =>
          ⟨m, d.FriendlyName, d.Index⟩) := by
  decide

/-- C1 as amended.  For every challenge page, the Method list of the Challenge is the
concatenation, over its Devices in order, of one Method (factor, device label, device
index) per factor that the two patterns of the code find for the index of the device,
and its length is the sum of these counts; an index without a fieldset match has no
factor.  On a page whose fieldsets are written with every input on a line of its own,
the factors the patterns find are the factors of the markup, so that the Method list
is the concatenation, over the Devices in order, of one Method per hidden input named
`factor` of the fieldset of the device, in source order.  On a page whose device
select is well formed the Devices are its options in document order.
`BeginChallenge` returns this Challenge once the page is delivered. -/
theorem BeginChallenge_methods (lib : Lib) (host body : Str) :
    (parseChallenge lib host body).Methods =
      (parseChallenge lib host body).Devices.flatMap (fun d =>
        (patternFactors lib body d.Index).map fun m => ⟨m, d.FriendlyName, d.Index⟩) ∧
    (parseChallenge lib host body).Methods.length =
      ((parseChallenge lib host body).Devices.map fun d =>
        (patternFactors lib body d.Index).length).sum ∧
    (∀ index, (∀ g ∈ FindAllStringSubmatch fieldsetRegex body, g.getD 1 [] ≠ index) →
      patternFactors lib body index = []) ∧
    (∀ pre post fs,
      body = pre ++ renderFieldsets fs ++ post →
      occursIn "<fieldset data-device-index=\"".toList pre = false →
      (pre = [] ∨ ∃ pre1, pre = pre1 ++ ['\n']) →
      occursIn "<fieldset data-device-index=\"".toList post = false →
      (∀ f ∈ fs, '\n' ∉ f.index ∧ ∀ i ∈ f.inputs,
        (∀ c ∈ i.name, plainChar c = true) ∧ ∀ c ∈ i.value, plainChar c = true) →
      (∀ index, patternFactors lib body index = markupFactors lib fs index) ∧
      (parseChallenge lib host body).Methods =
        (parseChallenge lib host body).Devices.flatMap (fun d =>
          (markupFactors lib fs d.Index).map fun m => ⟨m, d.FriendlyName, d.Index⟩) ∧
      (parseChallenge lib host body).Methods.length =
        ((parseChallenge lib host body).Devices.map fun d =>
          (markupFactors lib fs d.Index).length).sum) ∧
    (∀ pre post lead attrs opts,
      lib.tokenize body = pre ++ selectTokens attrs lead opts ++ post →
      (∀ z ∈ pre, z.beforeSelect = true) →
      MapGet (parseAttrs attrs) "name" [] = ("device" : Str) →
      (∀ z ∈ lead, z.isGap = true) →
      (∀ o ∈ opts, MapGet (parseAttrs o.attrs) "value" [] ≠ []) →
      (∀ o ∈ opts, ∀ z ∈ o.gap, z.isGap = true) →
      (parseChallenge lib host body).Devices =
        opts.map fun o => ⟨MapGet (parseAttrs o.attrs) "value" [], o.label⟩) ∧
    (∀ t log parent sig postAction req resp,
      (BeginChallenge lib t log parent host sig postAction).2 = log ++ [req] →
      t log req = .ok resp →
      resp.Body.readErr = none → resp.Body.closeErr = none →
      resp.Body.data = body →
      (BeginChallenge lib t log parent host sig postAction).1 =
        .returned (some (parseChallenge lib host body), none)) := by
  have hm := parseChallenge_methods lib host body
  unfold patternMethods at hm
  have hlen : (parseChallenge lib host body).Methods.length =
      ((parseChallenge lib host body).Devices.map fun d =>
        (patternFactors lib body d.Index).length).sum := by
    rw [hm, List.length_flatMap]
    congr 1
    apply List.map_congr_left
    intro d _
    simp only [Function.comp, List.length_map]
  refine ⟨hm, hlen, ?_, ?_, ?_, ?_⟩
  · intro index h
    unfold patternFactors
    have : (FindAllStringSubmatch fieldsetRegex body).filter
        (fun g => g.getD 1 [] = index) = [] := by
      rw [List.filter_eq_nil_iff]
      intro g hg
      simp only [decide_eq_true_eq]
      exact h g hg
    rw [this]
    rfl
  · intro pre post fs hb hpre hend hpost hfs
    have hpf : ∀ index, patternFactors lib body index = markupFactors lib fs index := by
      intro index
      rw [hb]
      exact patternFactors_rendered lib pre post fs index hpre hend hpost hfs
    have hfun : (fun d : Device => (patternFactors lib body d.Index).map
          fun m => (⟨m, d.FriendlyName, d.Index⟩ : Method)) =
        fun d => (markupFactors lib fs d.Index).map
          fun m => ⟨m, d.FriendlyName, d.Index⟩ := by
      funext d
      rw [hpf]
    have hfun2 : (fun d : Device => (patternFactors lib body d.Index).length) =
        fun d => (markupFactors lib fs d.Index).length := by
      funext d
      rw [hpf]
    refine ⟨hpf, ?_, ?_⟩
    · rw [← hfun]
      exact hm
    · rw [← hfun2]
      exact hlen
  · intro pre post lead attrs opts htok hpre hsel hlead hv hg
    show deviceLoop (lib.tokenize body) false [] [] = _
    rw [htok]
    exact deviceLoop_select pre post lead attrs opts hpre hsel hlead hv hg
  · intro t log parent sig postAction req resp hlog ht hr hc hb
    rw [← hb]
    exact BeginChallenge_page lib t log parent host sig postAction req resp hlog ht hr hc

/-- C1 as amended, on two pages.  The example page of the specification yields the
Devices `[(0, iPhone)]` and the Methods `[(Duo Push, iPhone, 0)]`.  The second page,
with three devices of which the third has no fieldset and every input on its own line,
yields four Methods: three for the phone, one for the landline, none for the token. -/
theorem BeginChallenge_methods_witness :
    (BeginChallenge demoLib (scripted [.ok (okResponse examplePage)]) []
        "https://idp.mit.edu/idp/Authn" "api.duosecurity.com" "abc:def" "/idp/Authn").1 =
      .returned (some { Devices := [⟨"0", "iPhone"⟩],
                        Methods := [⟨"Duo Push", "iPhone", "0"⟩],
                        hiddenInputs := [], host := "api.duosecurity.com", txid := [] },
                 none) ∧
    (parseChallenge demoLib "api.duosecurity.com" examplePage2).Devices =
      [⟨"phone1", "iPhone"⟩, ⟨"phone2", "Landline"⟩, ⟨"token1", "Token"⟩] ∧
    patternFactors demoLib examplePage2 "phone1" = ["Duo Push", "Phone Call", "Passcode"] ∧
    patternFactors demoLib examplePage2 "token1" = [] ∧
    (parseChallenge demoLib "api.duosecurity.com" examplePage2).Methods =
      [⟨"Duo Push", "iPhone", "phone1"⟩, ⟨"Phone Call", "iPhone", "phone1"⟩,
       ⟨"Passcode", "iPhone", "phone1"⟩, ⟨"Phone Call", "Landline", "phone2"⟩] :=
  ⟨((BeginChallenge_methods demoLib "api.duosecurity.com" examplePage).2.2.2.2.2
      (scripted [.ok (okResponse examplePage)]) [] "https://idp.mit.edu/idp/Authn" "abc:def"
      "/idp/Authn" _ (okResponse examplePage) rfl rfl rfl rfl rfl).trans (by decide),
   (BeginChallenge_methods demoLib "api.duosecurity.com" examplePage2).2.2.2.2.1
      (exampleTokens2.take 4) [] [⟨.TextToken, [], [], "\n"⟩] [("name", "device")]
      [ ⟨[("value", "phone1")], "iPhone", [⟨.TextToken, [], [], "\n"⟩]⟩,
        ⟨[("value", "phone2")], "Landline", [⟨.TextToken, [], [], "\n"⟩]⟩,
        ⟨[("value", "token1")], "Token", [⟨.TextToken, [], [], "\n"⟩]⟩ ]
      rfl (by decide) (by decide) (by decide) (by decide) (by decide),
   (((BeginChallenge_methods demoLib "api.duosecurity.com" examplePage2).2.2.2.1
      examplePage2Head "</form>\n" exampleFieldsets rfl (by decide)
      (Or.inr ⟨examplePage2Head.dropLast, by decide⟩) (by decide) (by decide)).1
        "phone1").trans (by decide),
   (BeginChallenge_methods demoLib "api.duosecurity.com" examplePage2).2.2.1 "token1"
      (by decide),
   ((BeginChallenge_methods demoLib "api.duosecurity.com" examplePage2).2.2.2.1
      examplePage2Head "</form>\n" exampleFieldsets rfl (by decide)
      (Or.inr ⟨examplePage2Head.dropLast, by decide⟩) (by decide) (by decide)).2.1.trans
        (by decide)⟩

end Touchstone
